import Mathlib

/-!
Verification development for the RoR2 save-editor unlock-state
synchronization engine (`src/lib/save-operations.ts` and
`src/lib/challenge-logbook-mapping.ts`).

The static catalogs (`data/challenges.ts` with `id`/`dlc`/`category`
fields and `data/logbook-entries.ts`) are host-supplied input data and
are not part of the engine; every definition below is therefore
parameterized by a `Catalog` value, and concrete catalogs used in
counterexamples are small instances built from the shapes the spec and
the data model prescribe.

JavaScript `Set` objects are modelled as duplicate-free `List String`
values in insertion order (`jsDedup`, `setAdd`, `setDelete`), and
`Map<string, string>` as an association list in insertion order
(`mapSet`, `mapDelete`, `mapHas`).  String helpers are implemented over
`List Char` by structural recursion so that all definitions evaluate
inside the kernel.
-/

namespace Ror2

/-! ## JS string primitives -/

def listIsPre : List Char → List Char → Bool
  | [], _ => true
  | _ :: _, [] => false
  | a :: as, b :: bs => a == b && listIsPre as bs

def strStartsWith (s p : String) : Bool :=
  listIsPre p.toList s.toList

def strEndsWith (s p : String) : Bool :=
  listIsPre p.toList.reverse s.toList.reverse

def listContainsSub (hay needle : List Char) : Bool :=
  match hay with
  | [] => listIsPre needle []
  | _ :: t => listIsPre needle hay || listContainsSub t needle

def strContains (s t : String) : Bool :=
  listContainsSub s.toList t.toList

def strDrop (s : String) (n : Nat) : String :=
  ⟨s.toList.drop n⟩

def strTake (s : String) (n : Nat) : String :=
  ⟨s.toList.take n⟩

def strLen (s : String) : Nat :=
  s.toList.length

def strDropRight (s : String) (n : Nat) : String :=
  ⟨s.toList.take (s.toList.length - n)⟩

def strToUpper (s : String) : String :=
  ⟨s.toList.map Char.toUpper⟩

def strToLower (s : String) : String :=
  ⟨s.toList.map Char.toLower⟩

/-- JS `s.replace(/suf$/, "")` for a literal suffix. -/
def stripSuf (s suf : String) : String :=
  if strEndsWith s suf then strDropRight s (strLen suf) else s

/-- JS `s.replace(/^pre/, "")` for a literal prefix. -/
def stripPre (s p : String) : String :=
  if strStartsWith s p then strDrop s (strLen p) else s

def splitOnAux (sep : List Char) : Nat → List Char → List Char → List (List Char)
  | 0, acc, rest => [acc.reverse ++ rest]
  | _ + 1, acc, [] => [acc.reverse]
  | fuel + 1, acc, c :: cs =>
    if listIsPre sep (c :: cs) then
      acc.reverse :: splitOnAux sep fuel [] ((c :: cs).drop sep.length)
    else
      splitOnAux sep fuel (c :: acc) cs

/-- JS `s.split(sep)` for a nonempty literal separator. -/
def strSplitOn (s sep : String) : List String :=
  (splitOnAux sep.toList (s.toList.length + 1) [] s.toList).map fun l => ⟨l⟩

def strJoinWith (sep : String) : List String → String
  | [] => ""
  | x :: xs => xs.foldl (fun acc y => acc ++ sep ++ y) x

/-! ## JS Set and Map semantics over lists -/

/-- `Array.from(new Set(l))`: first-occurrence deduplication. -/
def jsDedup (l : List String) : List String :=
  l.foldl (fun acc x => if acc.contains x then acc else acc ++ [x]) []

/-- `set.add(x)` on a duplicate-free list. -/
def setAdd (l : List String) (x : String) : List String :=
  if l.contains x then l else l ++ [x]

/-- `set.delete(x)`. -/
def setDelete (l : List String) (x : String) : List String :=
  l.filter (fun y => y != x)

def setAddAll (l : List String) (xs : List String) : List String :=
  xs.foldl setAdd l

def setDeleteAll (l : List String) (xs : List String) : List String :=
  xs.foldl setDelete l

/-- `map.set(k, v)`: update in place if the key exists, else append. -/
def mapSet (m : List (String × String)) (k v : String) : List (String × String) :=
  if m.any (fun p => p.1 == k) then
    m.map (fun p => if p.1 == k then (k, v) else p)
  else
    m ++ [(k, v)]

/-- `map.delete(k)`. -/
def mapDelete (m : List (String × String)) (k : String) : List (String × String) :=
  m.filter (fun p => p.1 != k)

/-- `map.has(k)`. -/
def mapHas (m : List (String × String)) (k : String) : Bool :=
  m.any (fun p => p.1 == k)

/-! ## Data model (`data/types.ts`) -/

structure Challenge where
  id : String
  name : String
  achievement : String
  unlocks : List String
  category : String
  dlc : String
deriving DecidableEq, Repr

structure LogbookEntry where
  id : String
  name : String
  category : String
  unlockId : String
  pickupId : Option String
  dlc : String
deriving DecidableEq, Repr

/-- The two static catalogs, supplied by the host application. -/
structure Catalog where
  challenges : List Challenge
  logbookEntries : List LogbookEntry
deriving DecidableEq, Repr

structure SaveData where
  name : String
  coins : Int
  achievements : List String
  unviewedAchievements : List String
  viewedUnlockables : List String
  unlocks : List String
  stats : List (String × String)
  viewedViewables : List String
  discoveredPickups : List String
deriving DecidableEq, Repr

def emptySave : SaveData :=
  { name := "Unknown", coins := 0, achievements := [], unviewedAchievements := []
    viewedUnlockables := [], unlocks := [], stats := [], viewedViewables := []
    discoveredPickups := [] }

/-- Rebuild all six set collections through `new Set(...)`, as every
operation in `save-operations.ts` does first. -/
def dedup6 (s : SaveData) : SaveData :=
  { s with
    achievements := jsDedup s.achievements
    unviewedAchievements := jsDedup s.unviewedAchievements
    viewedUnlockables := jsDedup s.viewedUnlockables
    unlocks := jsDedup s.unlocks
    viewedViewables := jsDedup s.viewedViewables
    discoveredPickups := jsDedup s.discoveredPickups }

/-! ## Identifier resolver (`save-operations.ts`, `getInternalBodyName`) -/

/-- The static override table inside `getInternalBodyName`. -/
def internalNameOverrides : List (String × String) :=
  [("TITANGOLD", "TitanGoldBody"),
   ("SUPERROBOBALLBOSS", "SuperRoboBallBossBody"),
   ("ROBOBALLBOSS", "RoboBallBossBody"),
   ("ROBOBALLMINI", "RoboBallMiniBody"),
   ("DRONE_BACKUP", "BackupDroneBody"),
   ("DRONE_BOMBER", "DroneBomberBody"),
   ("DRONE_DTHEALING", "DTHealingDroneBody"),
   ("DRONE_CLEANUP", "CleanupDroneBody"),
   ("DRONE_CHIRP", "ChirpBody"),
   ("MINIMUSHROOM", "Logs.MiniMushroom.0"),
   ("PARENT", "Logs.Parent.0"),
   ("NULLIFIER", "Logs.Nullifier.0"),
   ("SCAV", "Logs.Scav.0"),
   ("LUNARGOLEM", "Logs.LunarGolem.0"),
   ("LUNAREXPLODER", "Logs.LunarExploder.0"),
   ("LUNARWISP", "Logs.LunarWisp.0"),
   ("ACIDLARVA", "Logs.AcidLarva"),
   ("VOIDMEGACRAB", "Logs.VoidMegaCrab"),
   ("VOIDINFESTOR", "Logs.VoidInfestorBody"),
   ("MINORCONSTRUCT", "Logs.MinorConstructBody"),
   ("VOIDBARNACLE", "Logs.VoidBarnacleBody"),
   ("CLAYGRENADIER", "Logs.ClayGrenadierBody"),
   ("VOIDJAILER", "Logs.VoidJailerBody"),
   ("MEGACONSTRUCT", "Logs.MegaConstructBody"),
   ("XICONSTRUCT", "Logs.MegaConstructBody"),
   ("MINIVOIDRAIDCRAB", "Logs.MiniVoidRaidCrab"),
   ("FLYINGVERMIN", "Logs.FlyingVerminBody.0"),
   ("WORKERUNIT", "Logs.WorkerUnitBody.0"),
   ("EXTRACTORUNIT", "Logs.ExtractorUnitBody.0"),
   ("DEFECTIVEUNIT", "Logs.DefectiveUnitBody.0"),
   ("VULTUREHUNTER", "Logs.VultureHunter.0"),
   ("SOLUSWING", "Logs.SolusWingBody.0"),
   ("IRONHAULER", "Logs.IronHaulerBody.0"),
   ("SOLUSAMALGAMATOR", "Logs.SolusAmalgamatorBody.0"),
   ("FALSESONBOSS", "Logs.FalseSonBossBody.0"),
   ("SOLUSHEART", "Log.SolusHeart"),
   ("MINEPOD", "Logs.MinePodBody"),
   ("ELECTRICWORM", "Logs.ElectricWormBody.0"),
   ("MAGMAWORM", "Logs.MagmaWormBody.0"),
   ("IMPBOSS", "Logs.ImpBossBody.0"),
   ("BEETLEQUEEN", "Logs.BeetleQueenBody.0"),
   ("CLAYBOSS", "Logs.ClayBossBody.0"),
   ("BEETLEGUARD", "Logs.BeetleGuardBody.0"),
   ("GREATERWISP", "Logs.GreaterWispBody.0"),
   ("LEMURIANBRUISER", "Logs.LemurianBruiserBody.0"),
   ("CLAYBRUISER", "Logs.ClayBruiserBody.0"),
   ("VOIDSURVIVOR", "VoidSurvivorBody"),
   ("DRONETECH", "DroneTechBody"),
   ("FALSESON", "FalseSonBody"),
   ("CHEF", "ChefBody"),
   ("DAMPCAVE", "dampcavesimple")]

/-- The UNDERSCORE_CASE to PascalCase fallback conversion. -/
def pascalWords (clean : String) : String :=
  String.join ((strSplitOn clean "_").map fun seg =>
    strToUpper (strTake seg 1) ++ strToLower (strDrop seg 1))

/-- `getInternalBodyName` from `save-operations.ts`. -/
def getInternalBodyName (viewableId : String) : String :=
  let lastPart := (strSplitOn viewableId "/").getLastD ""
  if lastPart == "" then ""
  else
    let clean := stripSuf lastPart "_BODY_NAME"
    let clean := stripSuf clean "_NAME"
    let clean := stripPre clean "MAP_"
    let clean := stripSuf clean "_TITLE"
    match internalNameOverrides.lookup clean with
    | some v => v
    | none => pascalWords clean

/-! ## `convertToViewableId` and its helpers -/

/-- Capture group of the JS regex `/Logs\.(.+?)(?:Body)?(?:\.0)?$/`
applied to `uid`: leftmost match, lazy capture (so the longest of the
optional suffixes is stripped), nonempty capture. -/
def jsLogsMatch (uid : String) : Option String :=
  match strSplitOn uid "Logs." with
  | [] => none
  | [_] => none
  | _ :: rest =>
    let tail := strJoinWith "Logs." rest
    if tail == "" then none
    else if strEndsWith tail "Body.0" && decide (strLen tail > 6) then
      some (strDropRight tail 6)
    else if strEndsWith tail "Body" && decide (strLen tail > 4) then
      some (strDropRight tail 4)
    else if strEndsWith tail ".0" && decide (strLen tail > 2) then
      some (strDropRight tail 2)
    else some tail

/-- Capture group of the JS regex `/Logs\.Stages\.(.+)$/`. -/
def jsStageMatch (uid : String) : Option String :=
  match strSplitOn uid "Logs.Stages." with
  | [] => none
  | [_] => none
  | _ :: rest =>
    let tail := strJoinWith "Logs.Stages." rest
    if tail == "" then none else some tail

/-- The `specialMappings` table inside `convertToViewableId`. -/
def specialMappings : List (String × String) :=
  [("OPERATOR", "DRONETECH"),
   ("BANDIT2", "BANDIT2"),
   ("MULT", "TOOLBOT"),
   ("ENGI", "ENGI"),
   ("MAGE", "MAGE"),
   ("MERC", "MERC"),
   ("REX", "TREEBOT"),
   ("LOADER", "LOADER"),
   ("ACRID", "CROCO"),
   ("VOIDFIEND", "VOIDSURVIVOR"),
   ("DRONE1", "GUNNER"),
   ("DRONE2", "HEALING"),
   ("TURRET1", "TURRET1"),
   ("FLAMEDRONE", "FLAMEDRONE"),
   ("MEGADRONE", "MEGA"),
   ("DRONECOMMANDER", "COMMANDER"),
   ("HAULERDRONE", "HAULER"),
   ("JUNKDRONE", "JUNK"),
   ("CLEANUPDRONE", "CLEANUP"),
   ("DRONEBOMBER", "BOMBER"),
   ("DTGUNNERDRONE", "DTGUNNER"),
   ("DTHAULERDRONE", "DTHAULER"),
   ("DTHEALINGDRONE", "DTHEALING"),
   ("JAILERDRONE", "JAILER"),
   ("RECHARGEDRONE", "RECHARGE"),
   ("BOMBARDMENTDRONE", "BOMBARDMENT"),
   ("COPYCATDRONE", "COPYCAT"),
   ("EMERGENCYDRONE", "EMERGENCYDRONE"),
   ("EQUIPMENTDRONE", "EQUIPMENTDRONE"),
   ("MINORCONSTRUCT", "MINORCONSTRUCT"),
   ("XICONSTRUCT", "MEGACONSTRUCT"),
   ("ACIDLARVA", "ACIDLARVA"),
   ("VOIDMEGACRAB", "VOIDMEGACRAB"),
   ("SOLUSPROBE", "ROBOALLMINI"),
   ("SOLUSCONTROLUNIT", "ROBOBALLBOSS"),
   ("ALLOYWORSHIPUNIT", "SUPERROBOBALLBOSS"),
   ("CHILD", "CHILD"),
   ("SCORCHLING", "SCORCHLING"),
   ("HALCYONITE", "HALCYONITE"),
   ("FALSESONBOSS", "FALSESON_BOSS")]

def convertBodyPath (category : String) (b : String) : Option String :=
  let bodyName := stripSuf (strToUpper b) "BODY"
  let bodyName :=
    match specialMappings.lookup bodyName with
    | some v => v
    | none => bodyName
  if category == "monsters" then
    some ("/Logbook/LOGBOOK_CATEGORY_MONSTER/" ++ bodyName ++ "_BODY_NAME")
  else if category == "survivors" then
    some ("/Logbook/LOGBOOK_CATEGORY_SURVIVOR/" ++ bodyName ++ "_BODY_NAME")
  else if category == "drones" then
    if ["EMERGENCYDRONE", "EQUIPMENTDRONE", "FLAMEDRONE", "MEGADRONE"].contains bodyName then
      some ("/Logbook/LOGBOOK_CATEGORY_DRONE/" ++ bodyName ++ "_BODY_NAME")
    else
      some ("/Logbook/LOGBOOK_CATEGORY_DRONE/DRONE_" ++ bodyName ++ "_BODY_NAME")
  else none

/-- `convertToViewableId` from `save-operations.ts`. -/
def convertToViewableId (e : LogbookEntry) : Option String :=
  let stageM := jsStageMatch e.unlockId
  let bodyM := jsLogsMatch e.unlockId
  match stageM with
  | some st =>
    if e.category == "environments" then
      some ("/Logbook/LOGBOOK_CATEGORY_STAGE/MAP_" ++ strToUpper st ++ "_TITLE")
    else
      match bodyM with
      | none => none
      | some b => convertBodyPath e.category b
  | none =>
    match bodyM with
    | none => none
    | some b => convertBodyPath e.category b

/-! ## Alias and drone-pickup tables -/

def logbookAliasTable : List (String × List String) :=
  [("/Logbook/LOGBOOK_CATEGORY_SURVIVOR/COMMANDO_BODY_NAME", ["/Survivors/Commando"]),
   ("/Logbook/LOGBOOK_CATEGORY_SURVIVOR/HUNTRESS_BODY_NAME", ["/Survivors/Huntress"]),
   ("/Logbook/LOGBOOK_CATEGORY_SURVIVOR/BANDIT2_BODY_NAME", ["/Survivors/Bandit2"]),
   ("/Logbook/LOGBOOK_CATEGORY_SURVIVOR/TOOLBOT_BODY_NAME", ["/Survivors/Toolbot"]),
   ("/Logbook/LOGBOOK_CATEGORY_SURVIVOR/ENGI_BODY_NAME", ["/Survivors/Engi"]),
   ("/Logbook/LOGBOOK_CATEGORY_SURVIVOR/MAGE_BODY_NAME", ["/Survivors/Mage"]),
   ("/Logbook/LOGBOOK_CATEGORY_SURVIVOR/MERC_BODY_NAME", ["/Survivors/Merc"]),
   ("/Logbook/LOGBOOK_CATEGORY_SURVIVOR/TREEBOT_BODY_NAME", ["/Survivors/Treebot"]),
   ("/Logbook/LOGBOOK_CATEGORY_SURVIVOR/LOADER_BODY_NAME", ["/Survivors/Loader"]),
   ("/Logbook/LOGBOOK_CATEGORY_SURVIVOR/CROCO_BODY_NAME", ["/Survivors/Croco"]),
   ("/Logbook/LOGBOOK_CATEGORY_SURVIVOR/CAPTAIN_BODY_NAME", ["/Survivors/Captain"]),
   ("/Logbook/LOGBOOK_CATEGORY_SURVIVOR/RAILGUNNER_BODY_NAME", ["/Survivors/Railgunner"]),
   ("/Logbook/LOGBOOK_CATEGORY_SURVIVOR/VOIDSURVIVOR_BODY_NAME", ["/Survivors/VoidSurvivor"]),
   ("/Logbook/LOGBOOK_CATEGORY_SURVIVOR/SEEKER_BODY_NAME", ["/Survivors/Seeker"]),
   ("/Logbook/LOGBOOK_CATEGORY_SURVIVOR/FALSESON_BODY_NAME", ["/Survivors/FalseSon"]),
   ("/Logbook/LOGBOOK_CATEGORY_SURVIVOR/CHEF_BODY_NAME", ["/Survivors/Chef"]),
   ("/Logbook/LOGBOOK_CATEGORY_SURVIVOR/DRONETECH_BODY_NAME", ["/Survivors/DroneTech"]),
   ("/Logbook/LOGBOOK_CATEGORY_SURVIVOR/DRIFTER_BODY_NAME", ["/Survivors/Drifter"])]

def getLogbookAliases (mainId : String) : List String :=
  match logbookAliasTable.lookup mainId with
  | some l => l
  | none => []

def droneMap : List (String × String) :=
  [("Logs.Drone1Body.0", "DroneIndex.Drone1"),
   ("Logs.Drone2Body.0", "DroneIndex.Drone2"),
   ("Logs.Turret1Body.0", "DroneIndex.Turret1"),
   ("Logs.EmergencyDroneBody.0", "DroneIndex.EmergencyDrone"),
   ("Logs.EquipmentDroneBody.0", "DroneIndex.EquipmentDrone"),
   ("Logs.FlameDroneBody.0", "DroneIndex.FlameDrone"),
   ("Logs.MissileDroneBody.0", "DroneIndex.MissileDrone"),
   ("Logs.MegaDroneBody.0", "DroneIndex.MegaDrone"),
   ("Logs.DroneCommanderBody.0", "DroneIndex.DroneCommander"),
   ("Logs.HaulerDroneBody.0", "DroneIndex.HaulerDrone"),
   ("Logs.JunkDroneBody.0", "DroneIndex.JunkDrone"),
   ("Logs.BestBuddyBody.0", "DroneIndex.BestBuddy"),
   ("Logs.CleanupDroneBody.0", "DroneIndex.CleanupDrone"),
   ("Logs.DroneBomberBody.0", "DroneIndex.DroneBomber"),
   ("Logs.DTGunnerDroneBody.0", "DroneIndex.DTGunnerDrone"),
   ("Logs.DTHaulerDroneBody.0", "DroneIndex.DTHaulerDrone"),
   ("Logs.DTHealingDroneBody.0", "DroneIndex.DTHealingDrone"),
   ("Logs.JailerDroneBody.0", "DroneIndex.JailerDrone"),
   ("Logs.RechargeDroneBody.0", "DroneIndex.RechargeDrone"),
   ("Logs.BombardmentDroneBody.0", "DroneIndex.BombardmentDrone"),
   ("Logs.CopycatDroneBody.0", "DroneIndex.CopycatDrone"),
   ("Logs.LtDroneboyBody.0", "DroneIndex.LtDroneboy"),
   ("Logs.CrosshairsBody.0", "DroneIndex.Crosshairs"),
   ("Logs.ChirpBody.0", "DroneIndex.Chirp"),
   ("Logs.DocBody.0", "DroneIndex.Doc"),
   ("Logs.BarrierDroneBody.0", "DroneIndex.BarrierDrone"),
   ("Logs.FreezeDroneBody.0", "DroneIndex.FreezeDrone"),
   ("Logs.BackupDroneBody.0", "DroneIndex.BackupDrone"),
   ("DroneIndex.Drone1", "DroneIndex.Drone1")]

def getDronePickupId (unlockId : String) : Option String :=
  droneMap.lookup unlockId

/-! ## Reference graph (`challenge-logbook-mapping.ts`)

The TypeScript module builds its lookup `Map`s once at load time; a
later `set` with the same key overwrites an earlier one, which the
embedding mirrors with `getLast?` over the matching elements. -/

def hasMappedPre (u : String) : Bool :=
  strStartsWith u "Items." || strStartsWith u "Equipment."

/-- `unlockIdToLogbook.get uid`: only items/equipment entries are keys,
the last write wins. -/
def unlockIdToLogbook (C : Catalog) (uid : String) : Option LogbookEntry :=
  (C.logbookEntries.filter fun e =>
    (e.category == "items" || e.category == "equipment") && e.unlockId == uid).getLast?

/-- `linkedLogbookIds` computed for one challenge inside `buildMapping`. -/
def linkedEntryIds (C : Catalog) (c : Challenge) : List String :=
  c.unlocks.filterMap fun u =>
    if hasMappedPre u then (unlockIdToLogbook C u).map (·.id) else none

/-- `challengeToLogbook.get cid` (set only when nonempty; last wins). -/
def challengeToLogbook (C : Catalog) (cid : String) : List String :=
  match ((C.challenges.filter fun c => c.id == cid).filter fun c =>
      !(linkedEntryIds C c).isEmpty).getLast? with
  | some c => linkedEntryIds C c
  | none => []

/-- `logbookToChallenge.get eid`: challenge ids pushed in catalog order,
once per matching unlock. -/
def logbookToChallenge (C : Catalog) (eid : String) : List String :=
  C.challenges.flatMap fun c =>
    (linkedEntryIds C c).filterMap fun i => if i == eid then some c.id else none

def challengeById (C : Catalog) (cid : String) : Option Challenge :=
  (C.challenges.filter fun c => c.id == cid).getLast?

def logbookEntryById (C : Catalog) (eid : String) : Option LogbookEntry :=
  (C.logbookEntries.filter fun e => e.id == eid).getLast?

def getLogbookEntriesForChallenge (C : Catalog) (challengeId : String) : List LogbookEntry :=
  (challengeToLogbook C challengeId).filterMap (logbookEntryById C)

def getChallengesForLogbookEntry (C : Catalog) (entryId : String) : List Challenge :=
  (logbookToChallenge C entryId).filterMap (challengeById C)

/-- `isLogbookEntryProvidedByOtherChallenge`. -/
def isLogbookEntryProvidedByOtherChallenge (C : Catalog) (entry : LogbookEntry)
    (excludeAchievementId : String) (unlockedAchievements : List String) : Bool :=
  (getChallengesForLogbookEntry C entry.id).any fun challenge =>
    challenge.achievement != excludeAchievementId &&
      unlockedAchievements.contains challenge.achievement

/-- `shouldDisableChallengeForEntry`. -/
def shouldDisableChallengeForEntry (C : Catalog) (challenge : Challenge)
    (entryBeingDisabled : LogbookEntry) (currentViewedViewables : List String) : Bool :=
  let relatedEntries := getLogbookEntriesForChallenge C challenge.id
  if relatedEntries.length == 1 then true
  else
    relatedEntries.all fun entry =>
      entry.id == entryBeingDisabled.id ||
        !(currentViewedViewables.contains entry.unlockId)

/-! ## Stat projection (`updateLogbookStats`) -/

/-- The `bodyName` / `fullLogString` extraction at the top of
`updateLogbookStats` (lines 656-686 of `save-operations.ts`). -/
def logBodyDerive (uid : String) : String × String :=
  if strStartsWith uid "Logs." then
    let overrideName := getInternalBodyName uid
    if overrideName != "" &&
        (strStartsWith overrideName "Logs." || strStartsWith overrideName "Log.") then
      (stripSuf (stripPre (stripPre overrideName "Logs.") "Log.") ".0", overrideName)
    else
      match strSplitOn uid "." with
      | _ :: p1 :: _ => (stripSuf (stripSuf p1 ".0") "Body", "")
      | _ => ("", "")
  else
    let internal := getInternalBodyName uid
    if strStartsWith internal "Logs." || strStartsWith internal "Log." then
      (stripSuf (stripPre (stripPre internal "Logs.") "Log.") ".0", internal)
    else (internal, "")

/-- `stagesToUnlock` for the environments branch. -/
def envStages (bodyName : String) : List String :=
  let stageName := strToLower bodyName
  let l := [stageName]
  let l :=
    if strContains stageName "artifactworld" then
      l ++ ["artifactworld01", "artifactworld02", "artifactworld03", "artifactworld04"]
    else l
  if stageName == "moon" || stageName == "moon2" then l ++ ["moon2"] else l

/-- The `Logs.<Name>Body.0` default construction. -/
def defaultLogUnlock (bodyName : String) : String :=
  "Logs." ++ (if strEndsWith bodyName "Body" then bodyName else bodyName ++ "Body") ++ ".0"

/-- The log-unlock keys that `updateLogbookStats` adds to (or removes
from) the `unlocks` set for one entry. -/
def logProjKeys (e : LogbookEntry) : List String :=
  let bd := logBodyDerive e.unlockId
  if bd.1 == "" && bd.2 == "" then []
  else if e.category == "environments" then
    (envStages bd.1).map (fun stage => "Logs.Stages." ++ stage)
  else if e.category == "monsters" || e.category == "survivors" || e.category == "drones" then
    [if bd.2 == "" then defaultLogUnlock bd.1 else bd.2]
  else []

/-- The stats-map effect of `updateLogbookStats` on enable. -/
def logProjStatsTrue (e : LogbookEntry) (stats : List (String × String)) :
    List (String × String) :=
  let bd := logBodyDerive e.unlockId
  let bodyName := bd.1
  let fullLogString := bd.2
  if bodyName == "" && fullLogString == "" then stats
  else if e.category == "environments" then
    (envStages bodyName).foldl
      (fun st stage =>
        mapSet (mapSet st ("totalTimesVisited." ++ stage) "1")
          ("totalTimesCleared." ++ stage) "1")
      stats
  else if e.category == "monsters" || e.category == "survivors" || e.category == "drones" then
    let logUnlock := if fullLogString == "" then defaultLogUnlock bodyName else fullLogString
    let statBodyName :=
      if !(strEndsWith bodyName "Body") && !(strContains fullLogString "SolusHeart") then
        bodyName ++ "Body"
      else bodyName
    if logUnlock == "Log.SolusHeart" then stats
    else if e.category == "drones" then
      mapSet (mapSet stats ("timesSummoned." ++ statBodyName) "1")
        ("totalTimeAlive." ++ statBodyName) "1"
    else if e.category == "monsters" then
      let stats :=
        mapSet (mapSet stats ("killsAgainst." ++ statBodyName) "1")
          ("deathsFrom." ++ statBodyName) "0"
      if logUnlock == "Logs.MiniVoidRaidCrab" then
        mapSet (mapSet (mapSet (mapSet stats
          "killsAgainst.MiniVoidRaidCrabBodyBase" "1")
          "killsAgainst.MiniVoidRaidCrabBodyPhase1" "1")
          "killsAgainst.MiniVoidRaidCrabBodyPhase2" "1")
          "killsAgainst.MiniVoidRaidCrabBodyPhase3" "1"
      else stats
    else
      mapSet (mapSet (mapSet stats ("totalTimeAlive." ++ statBodyName) "1")
        ("timesPicked." ++ statBodyName) "1")
        ("totalWins." ++ statBodyName) "1"
  else stats

/-- The stats-map effect of `updateLogbookStats` on disable. -/
def logProjStatsFalse (e : LogbookEntry) (stats : List (String × String)) :
    List (String × String) :=
  let bd := logBodyDerive e.unlockId
  let bodyName := bd.1
  let fullLogString := bd.2
  if bodyName == "" && fullLogString == "" then stats
  else if e.category == "environments" then
    (envStages bodyName).foldl
      (fun st stage => mapDelete st ("Logs.Stages." ++ stage))
      stats
  else if e.category == "monsters" || e.category == "survivors" || e.category == "drones" then
    let logUnlock := if fullLogString == "" then defaultLogUnlock bodyName else fullLogString
    let statBodyName :=
      if !(strEndsWith bodyName "Body") && !(strContains fullLogString "SolusHeart") then
        bodyName ++ "Body"
      else bodyName
    if logUnlock == "Log.SolusHeart" then stats
    else if e.category == "drones" then
      mapDelete (mapDelete stats ("timesSummoned." ++ statBodyName))
        ("totalTimeAlive." ++ statBodyName)
    else if e.category == "monsters" then
      mapDelete (mapDelete stats ("killsAgainst." ++ statBodyName))
        ("deathsFrom." ++ statBodyName)
    else
      mapDelete (mapDelete (mapDelete stats ("totalTimeAlive." ++ statBodyName))
        ("timesPicked." ++ statBodyName))
        ("totalWins." ++ statBodyName)
  else stats

/-- `updateLogbookStats`: mutates the `unlocks` set and the `stats` map
for one logbook entry; returns the updated pair.  The source interleaves
the set and map mutations, but they touch disjoint collections, so the
embedding states them componentwise. -/
def updateLogbookStats (e : LogbookEntry) (enabled : Bool)
    (unlocks : List String) (stats : List (String × String)) :
    List String × List (String × String) :=
  if enabled then (setAddAll unlocks (logProjKeys e), logProjStatsTrue e stats)
  else (setDeleteAll unlocks (logProjKeys e), logProjStatsFalse e stats)

/-! ## Unlock predicate (`isLogbookEntryUnlocked`) -/

/-- The stats failsafe at the end of `isLogbookEntryUnlocked`
(lines 450-481): derives a body name and checks the derived log-unlock
strings; note that counters alone (non-`Logs.` keys) never match. -/
def statsFailsafe (s : SaveData) (e : LogbookEntry) : Bool :=
  let bodyName :=
    if strStartsWith e.unlockId "Logs." then
      match strSplitOn e.unlockId "." with
      | _ :: p1 :: _ => stripSuf p1 ".0"
      | _ => ""
    else if strContains e.unlockId "/Logbook/" then getInternalBodyName e.unlockId
    else ""
  if bodyName == "" then false
  else if strStartsWith bodyName "Logs." || strStartsWith bodyName "Log." then
    s.unlocks.contains bodyName
  else
    let logStat := "Logs." ++ bodyName ++ "Body.0"
    mapHas s.stats logStat || s.unlocks.contains logStat

/-- The drone fallback check (`DroneIndex` format for drones without a
`pickupId`). -/
def droneFallback (s : SaveData) (e : LogbookEntry) : Bool :=
  e.category == "drones" && e.pickupId == none &&
    (match getDronePickupId e.unlockId with
     | some p => s.discoveredPickups.contains p
     | none => false)

/-- `isLogbookEntryUnlocked` from `save-operations.ts`. -/
def isLogbookEntryUnlocked (s : SaveData) (e : LogbookEntry) : Bool :=
  s.unlocks.contains e.unlockId ||
  s.viewedViewables.contains e.unlockId ||
  (getLogbookAliases e.unlockId).any (fun a => s.viewedViewables.contains a) ||
  (match convertToViewableId e with
   | some v => s.viewedViewables.contains v
   | none => false) ||
  (match e.pickupId with
   | some p => s.discoveredPickups.contains p
   | none => false) ||
  droneFallback s e ||
  statsFailsafe s e

/-! ## Synchronization engine: `toggleAchievement` -/

/-- `toggleAchievement` from `save-operations.ts`.  The enable branch
always records the achievement id; the catalog lookup gates the unlock
and logbook synchronization.  On disable, the related-entries loop
consults `isLogbookEntryProvidedByOtherChallenge` against the
achievement set after the primary removal. -/
def toggleAchievement (C : Catalog) (s : SaveData) (achievementId : String)
    (enabled : Bool) : SaveData :=
  let w := dedup6 s
  if enabled then
    let w := { w with
      achievements := setAdd w.achievements achievementId
      unviewedAchievements := setAdd w.unviewedAchievements achievementId }
    match C.challenges.find? (fun c => c.achievement == achievementId) with
    | none => w
    | some challenge =>
      let rel := getLogbookEntriesForChallenge C challenge.id
      { w with
        viewedUnlockables := setAddAll w.viewedUnlockables challenge.unlocks
        unlocks := setAddAll (setAddAll w.unlocks challenge.unlocks)
          (rel.map (·.unlockId))
        viewedViewables := setAddAll w.viewedViewables (rel.map (·.unlockId))
        discoveredPickups := setAddAll w.discoveredPickups (rel.filterMap (·.pickupId)) }
  else
    let w := { w with
      achievements := setDelete w.achievements achievementId
      unviewedAchievements := setDelete w.unviewedAchievements achievementId }
    match C.challenges.find? (fun c => c.achievement == achievementId) with
    | none => w
    | some challenge =>
      let rel := getLogbookEntriesForChallenge C challenge.id
      let gone := rel.filter fun e =>
        !(isLogbookEntryProvidedByOtherChallenge C e achievementId w.achievements)
      { w with
        viewedUnlockables := setDeleteAll w.viewedUnlockables challenge.unlocks
        unlocks := setDeleteAll (setDeleteAll w.unlocks challenge.unlocks)
          (gone.map (·.unlockId))
        viewedViewables := setDeleteAll w.viewedViewables (gone.map (·.unlockId))
        discoveredPickups := setDeleteAll w.discoveredPickups (gone.filterMap (·.pickupId)) }

/-! ## Synchronization engine: `toggleLogbookEntry` -/

/-- One iteration of the related-challenges loop in the enable branch of
`toggleLogbookEntry`. -/
def applyEnableChallenge (C : Catalog) (w : SaveData) (challenge : Challenge) : SaveData :=
  let other := getLogbookEntriesForChallenge C challenge.id
  { w with
    achievements := setAdd w.achievements challenge.achievement
    unviewedAchievements := setAdd w.unviewedAchievements challenge.achievement
    viewedUnlockables := setAddAll w.viewedUnlockables challenge.unlocks
    unlocks := setAddAll (setAddAll w.unlocks challenge.unlocks) (other.map (·.unlockId))
    viewedViewables := setAddAll w.viewedViewables (other.map (·.unlockId))
    discoveredPickups := setAddAll w.discoveredPickups (other.filterMap (·.pickupId)) }

/-- One iteration of the challenges-to-disable loop in the disable
branch of `toggleLogbookEntry` (markers of every linked entry are
removed unconditionally there). -/
def applyDisableChallenge (C : Catalog) (w : SaveData) (challenge : Challenge) : SaveData :=
  let other := getLogbookEntriesForChallenge C challenge.id
  { w with
    achievements := setDelete w.achievements challenge.achievement
    unviewedAchievements := setDelete w.unviewedAchievements challenge.achievement
    viewedUnlockables := setDeleteAll w.viewedUnlockables challenge.unlocks
    unlocks := setDeleteAll (setDeleteAll w.unlocks challenge.unlocks) (other.map (·.unlockId))
    viewedViewables := setDeleteAll w.viewedViewables (other.map (·.unlockId))
    discoveredPickups := setDeleteAll w.discoveredPickups (other.filterMap (·.pickupId)) }

/-- The state of the disable branch of `toggleLogbookEntry` just before
the challenges-to-disable loop: the entry's own markers, aliases and
stat projection removed. -/
def preDisable (C : Catalog) (s : SaveData) (entry : LogbookEntry) : SaveData :=
  let w := dedup6 s
  let w := { w with
    unlocks := setDelete w.unlocks entry.unlockId
    viewedViewables :=
      setDeleteAll (setDelete w.viewedViewables entry.unlockId)
        (getLogbookAliases entry.unlockId)
    discoveredPickups :=
      match entry.pickupId with
      | some p => setDelete w.discoveredPickups p
      | none => w.discoveredPickups }
  let p := updateLogbookStats entry false w.unlocks w.stats
  { w with unlocks := p.1, stats := p.2 }

/-- `toggleLogbookEntry` from `save-operations.ts`.  On disable the
challenges to disable are decided on the viewed-viewables snapshot
before any removal. -/
def toggleLogbookEntry (C : Catalog) (s : SaveData) (entry : LogbookEntry)
    (enabled : Bool) : SaveData :=
  let w := dedup6 s
  if enabled then
    let w := { w with
      unlocks := setAdd w.unlocks entry.unlockId
      viewedViewables := setAdd w.viewedViewables entry.unlockId
      discoveredPickups :=
        match entry.pickupId with
        | some p => setAdd w.discoveredPickups p
        | none => w.discoveredPickups }
    let w := (getChallengesForLogbookEntry C entry.id).foldl (applyEnableChallenge C) w
    let w := { w with
      viewedViewables := setAddAll w.viewedViewables (getLogbookAliases entry.unlockId) }
    let p := updateLogbookStats entry true w.unlocks w.stats
    { w with unlocks := p.1, stats := p.2 }
  else
    let toDisable := (getChallengesForLogbookEntry C entry.id).filter fun challenge =>
      shouldDisableChallengeForEntry C challenge entry w.viewedViewables
    toDisable.foldl (applyDisableChallenge C) (preDisable C s entry)

/-! ## Bulk operations -/

/-- Model of `Record<string, boolean>` DLC filters: an association list
of explicit entries; `none` means no filter argument was passed. -/
def dlcSkip (allowedDLCs : Option (List (String × Bool))) (dlc : String) : Bool :=
  match allowedDLCs with
  | none => false
  | some f => dlc != "base" && f.lookup dlc == some false

/-- One iteration of the challenge loop in `unlockAll`. -/
def unlockAllStep (C : Catalog) (f : Option (List (String × Bool)))
    (w : SaveData) (challenge : Challenge) : SaveData :=
  if dlcSkip f challenge.dlc then w
  else
    let rel := getLogbookEntriesForChallenge C challenge.id
    { w with
      achievements := setAdd w.achievements challenge.achievement
      viewedUnlockables := setAddAll w.viewedUnlockables challenge.unlocks
      unlocks := setAddAll (setAddAll w.unlocks challenge.unlocks) (rel.map (·.unlockId))
      viewedViewables := setAddAll w.viewedViewables (rel.map (·.unlockId))
      discoveredPickups := setAddAll w.discoveredPickups (rel.filterMap (·.pickupId)) }

/-- One iteration of the inner related-challenges loop in
`unlockAllLogbook` (with its own DLC check). -/
def ualChallengeStep (f : Option (List (String × Bool)))
    (w : SaveData) (challenge : Challenge) : SaveData :=
  if dlcSkip f challenge.dlc then w
  else
    { w with
      achievements := setAdd w.achievements challenge.achievement
      viewedUnlockables := setAddAll w.viewedUnlockables challenge.unlocks
      unlocks := setAddAll w.unlocks challenge.unlocks }

/-- One iteration of the entry loop in `unlockAllLogbook`. -/
def unlockAllLogbookStep (C : Catalog) (f : Option (List (String × Bool)))
    (w : SaveData) (entry : LogbookEntry) : SaveData :=
  if dlcSkip f entry.dlc then w
  else
    let w := { w with
      unlocks := setAdd w.unlocks entry.unlockId
      viewedViewables := setAdd w.viewedViewables entry.unlockId
      discoveredPickups :=
        match entry.pickupId with
        | some p => setAdd w.discoveredPickups p
        | none => w.discoveredPickups }
    let w := (getChallengesForLogbookEntry C entry.id).foldl (ualChallengeStep f) w
    let w := { w with
      viewedViewables := setAddAll w.viewedViewables (getLogbookAliases entry.unlockId) }
    let p := updateLogbookStats entry true w.unlocks w.stats
    { w with unlocks := p.1, stats := p.2 }

/-- `unlockAllLogbook` from `save-operations.ts`. -/
def unlockAllLogbook (C : Catalog) (s : SaveData)
    (allowedDLCs : Option (List (String × Bool))) : SaveData :=
  let w := C.logbookEntries.foldl (unlockAllLogbookStep C allowedDLCs) (dedup6 s)
  { w with unviewedAchievements := [] }

/-- `unlockAll` from `save-operations.ts`: the batched enable branch of
`toggleAchievement` over every (DLC-allowed) challenge, unviewed
achievements cleared, then `unlockAllLogbook`. -/
def unlockAll (C : Catalog) (s : SaveData)
    (allowedDLCs : Option (List (String × Bool))) : SaveData :=
  let w := C.challenges.foldl (unlockAllStep C allowedDLCs) (dedup6 s)
  unlockAllLogbook C { w with unviewedAchievements := [] } allowedDLCs

/-! ## `lockAllLogbook` -/

/-- The per-entry body-name derivation inside the `lockAllLogbook` loop
(lines 1009-1025); unlike `logBodyDerive`, `Logs.`-format ids use the
raw second dot-segment with `Body` stripped. -/
def lockDerive (uid : String) : String × String :=
  if strStartsWith uid "Logs." then
    match strSplitOn uid "." with
    | _ :: p1 :: _ => (stripSuf (stripSuf p1 ".0") "Body", "")
    | _ => ("", "")
  else
    let internal := getInternalBodyName uid
    if strStartsWith internal "Logs." || strStartsWith internal "Log." then
      (stripSuf (stripPre (stripPre internal "Logs.") "Log.") ".0", internal)
    else (internal, "")

/-- The `key` whose removal from `unlocks` and `stats` closes the
`lockAllLogbook` entry loop (`""` when no removal happens). -/
def lockKey (e : LogbookEntry) : String :=
  let bd := lockDerive e.unlockId
  let bodyName := bd.1
  let fullLogString := bd.2
  if bodyName != "" || fullLogString != "" then
    if e.category == "environments" then "Logs.Stages." ++ strToLower bodyName
    else if e.category == "monsters" || e.category == "survivors" ||
        e.category == "drones" then
      if fullLogString == "" then "Logs." ++ bodyName ++ "Body.0" else fullLogString
    else fullLogString
  else ""

/-- The stat keys the `lockAllLogbook` entry loop deletes for one entry
(the per-category counter families plus `lockKey`). -/
def lockStatKeys (e : LogbookEntry) : List String :=
  let bd := lockDerive e.unlockId
  let bodyName := bd.1
  let fullLogString := bd.2
  if bodyName != "" || fullLogString != "" then
    let statBodyName :=
      if strEndsWith bodyName "Body" then strDropRight bodyName 4 else bodyName
    let fam :=
      if e.category == "environments" then []
      else if e.category == "drones" then
        ["timesSummoned." ++ statBodyName ++ "Body",
         "totalTimeAlive." ++ statBodyName ++ "Body"]
      else if e.category == "monsters" then
        ["killsAgainst." ++ statBodyName ++ "Body",
         "deathsFrom." ++ statBodyName ++ "Body"]
      else if e.category == "survivors" then
        ["totalTimeAlive." ++ statBodyName ++ "Body",
         "timesPicked." ++ statBodyName ++ "Body",
         "totalWins." ++ statBodyName ++ "Body"]
      else []
    fam ++ (if lockKey e == "" then [] else [lockKey e])
  else []

/-- One iteration of the entry loop in `lockAllLogbook` (everything
except the challenges-to-disable accumulation).  The interleaved
`delete` calls of the source commute, so the step is stated
per collection. -/
def lockEntryStep (w : SaveData) (entry : LogbookEntry) : SaveData :=
  { w with
    unlocks :=
      if lockKey entry == "" then setDelete w.unlocks entry.unlockId
      else setDelete (setDelete w.unlocks entry.unlockId) (lockKey entry)
    viewedViewables :=
      setDeleteAll (setDelete w.viewedViewables entry.unlockId)
        (getLogbookAliases entry.unlockId)
    discoveredPickups :=
      match entry.pickupId with
      | some p => setDelete w.discoveredPickups p
      | none => w.discoveredPickups
    stats := (lockStatKeys entry).foldl mapDelete w.stats }

/-- One iteration of the challenges-to-disable loop that closes
`lockAllLogbook`. -/
def lockChallengeStep (C : Catalog) (w : SaveData) (achievementId : String) : SaveData :=
  let w := { w with
    achievements := setDelete w.achievements achievementId
    unviewedAchievements := setDelete w.unviewedAchievements achievementId }
  match C.challenges.find? (fun c => c.achievement == achievementId) with
  | none => w
  | some challenge =>
    { w with
      viewedUnlockables := setDeleteAll w.viewedUnlockables challenge.unlocks
      unlocks := setDeleteAll w.unlocks challenge.unlocks }

/-- `lockAllLogbook` from `save-operations.ts`: undo every entry's
markers, then disable every challenge linked to any entry. -/
def lockAllLogbook (C : Catalog) (s : SaveData) : SaveData :=
  let w := C.logbookEntries.foldl lockEntryStep (dedup6 s)
  let toDisable := jsDedup (C.logbookEntries.flatMap fun entry =>
    (getChallengesForLogbookEntry C entry.id).map (·.achievement))
  toDisable.foldl (lockChallengeStep C) w

/-! ## Concrete inputs used by witnesses and counterexamples

The real catalogs are host-supplied data outside the engine; these
small instances follow the shapes the spec's data model and scenarios
prescribe. -/

def emptyCatalog : Catalog := ⟨[], []⟩

/-- The drone entry of the spec's scenario (§8). -/
def chirpEntry : LogbookEntry :=
  ⟨"drone_chirp", "Chirp", "drones", "Logs.ChirpBody.0", some "DroneIndex.Chirp", "base"⟩

/-- The environment entry of the spec's `artifactworld` scenario (§8). -/
def envAmbry : LogbookEntry :=
  ⟨"env_artifactworld", "Bulwark Ambry", "environments",
   "/Logbook/LOGBOOK_CATEGORY_STAGE/MAP_ARTIFACTWORLD_TITLE", none, "base"⟩

def catEnv : Catalog := ⟨[], [envAmbry]⟩

def chA : Challenge := ⟨"cA", "Challenge A", "AchA", ["Items.Shared"], "items", "base"⟩

def chB : Challenge := ⟨"cB", "Challenge B", "AchB", ["Items.Shared"], "items", "base"⟩

def entShared : LogbookEntry :=
  ⟨"eS", "Shared Item", "items", "Items.Shared", some "ItemIndex.Shared", "base"⟩

/-- Two challenges both granting the same items-category entry. -/
def catShared : Catalog := ⟨[chA, chB], [entShared]⟩

def catSolo : Catalog := ⟨[chA], [entShared]⟩

def saveHeldA : SaveData := { emptySave with achievements := ["AchA"] }

def chSotv : Challenge := ⟨"c9", "DLC Challenge", "AchSotv", ["Items.Zed"], "items", "sotv"⟩

def catSotv : Catalog := ⟨[chSotv], []⟩

def chTwo : Challenge := ⟨"cT", "Two Entries", "AchT", ["Items.P", "Items.Q"], "items", "base"⟩

def entP : LogbookEntry := ⟨"eP", "P", "items", "Items.P", some "ItemIndex.P", "base"⟩

def entQ : LogbookEntry := ⟨"eQ", "Q", "items", "Items.Q", some "ItemIndex.Q", "base"⟩

/-- One challenge linked to two entries. -/
def catTwo : Catalog := ⟨[chTwo], [entP, entQ]⟩

def saveT : SaveData :=
  { emptySave with achievements := ["AchT"], viewedViewables := ["Items.P"] }

def entMagma : LogbookEntry :=
  ⟨"monster_magmaworm", "Magma Worm", "monsters", "Logs.MagmaWormBody.0", none, "base"⟩

/-- Counters for the magma worm present, but no unlock marker at all. -/
def saveCounters : SaveData :=
  { emptySave with
    stats := [("killsAgainst.MagmaWormBody", "1"), ("deathsFrom.MagmaWormBody", "0")] }

def saveMisc : SaveData := { emptySave with stats := [("totalLoginSeconds", "42")] }

/-- The stat-key families the lock/enable passes may touch; a key with
none of these prefixes is unrelated to any tracked family. -/
def trackedStatPre : List String :=
  ["timesSummoned.", "totalTimeAlive.", "killsAgainst.", "deathsFrom.", "timesPicked.",
   "totalWins.", "totalTimesVisited.", "totalTimesCleared.", "Logs.", "Log."]

/-! ## Membership toolkit for the JS set and map semantics -/

theorem contains_iff {l : List String} {x : String} : l.contains x = true ↔ x ∈ l :=
  List.elem_iff

theorem mem_setAdd {l : List String} {x y : String} :
    y ∈ setAdd l x ↔ y ∈ l ∨ y = x := by
  unfold setAdd
  by_cases h : x ∈ l
  · rw [if_pos (contains_iff.mpr h)]
    constructor
    · exact Or.inl
    · rintro (hy | rfl) <;> [exact hy; exact h]
  · rw [if_neg (by simp [contains_iff, h])]
    simp

theorem mem_setDelete {l : List String} {x y : String} :
    y ∈ setDelete l x ↔ y ∈ l ∧ y ≠ x := by
  unfold setDelete
  simp [List.mem_filter]

theorem mem_setAddAll {xs l : List String} {y : String} :
    y ∈ setAddAll l xs ↔ y ∈ l ∨ y ∈ xs := by
  induction xs generalizing l with
  | nil => simp [setAddAll]
  | cons x xs ih =>
    show y ∈ setAddAll (setAdd l x) xs ↔ _
    rw [ih, mem_setAdd]
    simp
    tauto

theorem mem_setDeleteAll {xs l : List String} {y : String} :
    y ∈ setDeleteAll l xs ↔ y ∈ l ∧ y ∉ xs := by
  induction xs generalizing l with
  | nil => simp [setDeleteAll]
  | cons x xs ih =>
    show y ∈ setDeleteAll (setDelete l x) xs ↔ _
    rw [ih, mem_setDelete]
    simp
    tauto

theorem jsDedup_eq : jsDedup = setAddAll [] := rfl

theorem mem_jsDedup {l : List String} {y : String} : y ∈ jsDedup l ↔ y ∈ l := by
  rw [jsDedup_eq, mem_setAddAll]
  simp

theorem mem_mapDelete {m : List (String × String)} {k : String} {p : String × String} :
    p ∈ mapDelete m k ↔ p ∈ m ∧ p.1 ≠ k := by
  unfold mapDelete
  simp [List.mem_filter]

theorem mapHas_iff {m : List (String × String)} {k : String} :
    mapHas m k = true ↔ ∃ p ∈ m, p.1 = k := by
  unfold mapHas
  simp [List.any_eq_true]

theorem mem_foldl_mapDelete {ks : List String} {m : List (String × String)}
    {p : String × String} :
    p ∈ ks.foldl mapDelete m ↔ p ∈ m ∧ ∀ k ∈ ks, p.1 ≠ k := by
  induction ks generalizing m with
  | nil => simp
  | cons k ks ih =>
    show p ∈ ks.foldl mapDelete (mapDelete m k) ↔ _
    rw [ih, mem_mapDelete]
    simp
    tauto

/-! ## String prefix lemmas -/

theorem listIsPre_refl_append (l t : List Char) : listIsPre l (l ++ t) = true := by
  induction l with
  | nil => rfl
  | cons a as ih => simp [listIsPre, ih]

theorem listIsPre_extend {p l : List Char} (t : List Char)
    (h : listIsPre p l = true) : listIsPre p (l ++ t) = true := by
  induction p generalizing l with
  | nil => rfl
  | cons a as ih =>
    cases l with
    | nil => simp [listIsPre] at h
    | cons b bs =>
      simp only [listIsPre, Bool.and_eq_true] at h ⊢
      exact ⟨h.1, ih h.2⟩

theorem strStartsWith_append (p x : String) : strStartsWith (p ++ x) p = true := by
  unfold strStartsWith
  have : (p ++ x).toList = p.toList ++ x.toList := String.data_append p x
  rw [this]
  exact listIsPre_refl_append _ _

theorem strStartsWith_extend {p l : String} (t : String)
    (h : strStartsWith l p = true) : strStartsWith (l ++ t) p = true := by
  unfold strStartsWith at h ⊢
  have : (l ++ t).toList = l.toList ++ t.toList := String.data_append l t
  rw [this]
  exact listIsPre_extend _ h

/-! ## Frame of `toggleAchievement` -/

theorem toggleAchievement_frame (C : Catalog) (s : SaveData) (aid : String) (b : Bool) :
    (toggleAchievement C s aid b).stats = s.stats ∧
    (toggleAchievement C s aid b).name = s.name ∧
    (toggleAchievement C s aid b).coins = s.coins := by
  unfold toggleAchievement dedup6
  cases b <;>
    cases hf : C.challenges.find? (fun c => c.achievement == aid) <;>
      simp [hf]

/-- C10: for every state, every achievement id (known or unknown to the
catalog) and both toggle directions, `toggleAchievement` leaves the
stats counter map, the profile name and the coin count exactly as in
the input state; only the six set collections can change. -/
theorem claim_C10 (C : Catalog) (s : SaveData) (achievementId : String) (enabled : Bool) :
    (toggleAchievement C s achievementId enabled).stats = s.stats ∧
    (toggleAchievement C s achievementId enabled).name = s.name ∧
    (toggleAchievement C s achievementId enabled).coins = s.coins :=
  toggleAchievement_frame C s achievementId enabled

/-- C7: when the achievement id matches no challenge of the catalog,
`toggleAchievement` does not fault: `viewedUnlockables`, `unlocks`,
`viewedViewables`, `discoveredPickups` are unchanged as sets, the stats
map, name and coins are unchanged exactly, and the achievement sets can
differ only at the directly specified id itself. -/
theorem claim_C7 (C : Catalog) (s : SaveData) (achievementId : String) (enabled : Bool)
    (h : ∀ c ∈ C.challenges, c.achievement ≠ achievementId) :
    (∀ x, x ∈ (toggleAchievement C s achievementId enabled).viewedUnlockables ↔
      x ∈ s.viewedUnlockables) ∧
    (∀ x, x ∈ (toggleAchievement C s achievementId enabled).unlocks ↔ x ∈ s.unlocks) ∧
    (∀ x, x ∈ (toggleAchievement C s achievementId enabled).viewedViewables ↔
      x ∈ s.viewedViewables) ∧
    (∀ x, x ∈ (toggleAchievement C s achievementId enabled).discoveredPickups ↔
      x ∈ s.discoveredPickups) ∧
    (toggleAchievement C s achievementId enabled).stats = s.stats ∧
    (toggleAchievement C s achievementId enabled).name = s.name ∧
    (toggleAchievement C s achievementId enabled).coins = s.coins ∧
    (∀ x, x ≠ achievementId →
      ((x ∈ (toggleAchievement C s achievementId enabled).achievements ↔
          x ∈ s.achievements) ∧
       (x ∈ (toggleAchievement C s achievementId enabled).unviewedAchievements ↔
          x ∈ s.unviewedAchievements))) := by
  have hf : C.challenges.find? (fun c => c.achievement == achievementId) = none := by
    rw [List.find?_eq_none]
    intro c hc
    simp [h c hc]
  unfold toggleAchievement dedup6
  cases enabled <;>
    simp [hf, mem_jsDedup, mem_setAdd, mem_setDelete] <;>
    intro x hx <;>
      simp [mem_jsDedup, mem_setAdd, mem_setDelete, hx]

/-- Witness for C7 at a concrete catalog, state and unknown id. -/
theorem claim_C7_witness :
    (toggleAchievement catShared saveHeldA "NoSuchAchievement" true).stats =
      saveHeldA.stats :=
  (claim_C7 catShared saveHeldA "NoSuchAchievement" true (by decide)).2.2.2.2.1

/-- C5: evaluation of `toggleLogbookEntry` on the spec's drone scenario
entry (`Logs.ChirpBody.0` / `DroneIndex.Chirp`).  The three membership
effects hold and disabling removes everything that was added, but the
counters the code creates are `timesSummoned.chirpbodyBody` and
`totalTimeAlive.chirpbodyBody` (plus the unlock `Logs.chirpbody.0`),
not the `timesSummoned.ChirpBody` / `totalTimeAlive.ChirpBody` keys the
claim (and the spec scenario) state: `getInternalBodyName` lower-cases
`Logs.`-format ids, so the override branch of `updateLogbookStats`
fires with a mangled body name. -/
theorem claim_C5 :
    (toggleLogbookEntry emptyCatalog emptySave chirpEntry true).unlocks.contains
      "Logs.ChirpBody.0" = true ∧
    (toggleLogbookEntry emptyCatalog emptySave chirpEntry true).viewedViewables.contains
      "Logs.ChirpBody.0" = true ∧
    (toggleLogbookEntry emptyCatalog emptySave chirpEntry true).discoveredPickups.contains
      "DroneIndex.Chirp" = true ∧
    mapHas (toggleLogbookEntry emptyCatalog emptySave chirpEntry true).stats
      "timesSummoned.ChirpBody" = false ∧
    mapHas (toggleLogbookEntry emptyCatalog emptySave chirpEntry true).stats
      "totalTimeAlive.ChirpBody" = false ∧
    mapHas (toggleLogbookEntry emptyCatalog emptySave chirpEntry true).stats
      "timesSummoned.chirpbodyBody" = true ∧
    mapHas (toggleLogbookEntry emptyCatalog emptySave chirpEntry true).stats
      "totalTimeAlive.chirpbodyBody" = true ∧
    toggleLogbookEntry emptyCatalog
      (toggleLogbookEntry emptyCatalog emptySave chirpEntry true) chirpEntry false =
      emptySave := by
  decide

/-! ## Monotonicity of the bulk-unlock passes -/

theorem updateStats_fst_true (e : LogbookEntry) (u : List String)
    (st : List (String × String)) :
    (updateLogbookStats e true u st).1 = setAddAll u (logProjKeys e) := rfl

theorem updateStats_fst_false (e : LogbookEntry) (u : List String)
    (st : List (String × String)) :
    (updateLogbookStats e false u st).1 = setDeleteAll u (logProjKeys e) := rfl

theorem updateStats_true_unlocks_mono (e : LogbookEntry) (u : List String)
    (st : List (String × String)) {x : String} (h : x ∈ u) :
    x ∈ (updateLogbookStats e true u st).1 := by
  rw [updateStats_fst_true]
  exact mem_setAddAll.mpr (Or.inl h)

theorem ualChallengeStep_ach_mono (f : Option (List (String × Bool)))
    (w : SaveData) (c : Challenge) {x : String} (h : x ∈ w.achievements) :
    x ∈ (ualChallengeStep f w c).achievements := by
  unfold ualChallengeStep
  split <;> simp [mem_setAdd, h]

theorem ualChallengeStep_unlocks_mono (f : Option (List (String × Bool)))
    (w : SaveData) (c : Challenge) {x : String} (h : x ∈ w.unlocks) :
    x ∈ (ualChallengeStep f w c).unlocks := by
  unfold ualChallengeStep
  split <;> simp [mem_setAddAll, h]

theorem ualInner_ach_mono (f : Option (List (String × Bool)))
    (cs : List Challenge) (w : SaveData) {x : String} (h : x ∈ w.achievements) :
    x ∈ (cs.foldl (ualChallengeStep f) w).achievements := by
  induction cs generalizing w with
  | nil => exact h
  | cons c cs ih => exact ih _ (ualChallengeStep_ach_mono f w c h)

theorem ualInner_unlocks_mono (f : Option (List (String × Bool)))
    (cs : List Challenge) (w : SaveData) {x : String} (h : x ∈ w.unlocks) :
    x ∈ (cs.foldl (ualChallengeStep f) w).unlocks := by
  induction cs generalizing w with
  | nil => exact h
  | cons c cs ih => exact ih _ (ualChallengeStep_unlocks_mono f w c h)

theorem ualStep_ach_mono (C : Catalog) (f : Option (List (String × Bool)))
    (w : SaveData) (e : LogbookEntry) {x : String} (h : x ∈ w.achievements) :
    x ∈ (unlockAllLogbookStep C f w e).achievements := by
  unfold unlockAllLogbookStep
  split
  · exact h
  · exact ualInner_ach_mono f _ _ h

theorem ualStep_unlocks_mono (C : Catalog) (f : Option (List (String × Bool)))
    (w : SaveData) (e : LogbookEntry) {x : String} (h : x ∈ w.unlocks) :
    x ∈ (unlockAllLogbookStep C f w e).unlocks := by
  unfold unlockAllLogbookStep
  split
  · exact h
  · dsimp only
    rw [updateStats_fst_true]
    exact mem_setAddAll.mpr
      (Or.inl (ualInner_unlocks_mono f _ _ (mem_setAdd.mpr (Or.inl h))))

theorem ualStep_self_unlocks (C : Catalog) (f : Option (List (String × Bool)))
    (w : SaveData) (e : LogbookEntry) (hf : dlcSkip f e.dlc = false) :
    e.unlockId ∈ (unlockAllLogbookStep C f w e).unlocks := by
  unfold unlockAllLogbookStep
  rw [if_neg (by simp [hf])]
  dsimp only
  rw [updateStats_fst_true]
  exact mem_setAddAll.mpr
    (Or.inl (ualInner_unlocks_mono f _ _ (mem_setAdd.mpr (Or.inr rfl))))

theorem ualFold_ach_mono (C : Catalog) (f : Option (List (String × Bool)))
    (l : List LogbookEntry) (w : SaveData) {x : String} (h : x ∈ w.achievements) :
    x ∈ (l.foldl (unlockAllLogbookStep C f) w).achievements := by
  induction l generalizing w with
  | nil => exact h
  | cons e l ih => exact ih _ (ualStep_ach_mono C f w e h)

theorem ualFold_unlocks_mono (C : Catalog) (f : Option (List (String × Bool)))
    (l : List LogbookEntry) (w : SaveData) {x : String} (h : x ∈ w.unlocks) :
    x ∈ (l.foldl (unlockAllLogbookStep C f) w).unlocks := by
  induction l generalizing w with
  | nil => exact h
  | cons e l ih => exact ih _ (ualStep_unlocks_mono C f w e h)

theorem ualFold_self_unlocks (C : Catalog) (f : Option (List (String × Bool)))
    (l : List LogbookEntry) (e : LogbookEntry) (hf : dlcSkip f e.dlc = false) :
    ∀ w : SaveData, e ∈ l → e.unlockId ∈ (l.foldl (unlockAllLogbookStep C f) w).unlocks := by
  induction l with
  | nil => intro w he; cases he
  | cons e' l ih =>
    intro w he
    rcases List.mem_cons.mp he with rfl | he2
    · exact ualFold_unlocks_mono C f l _ (ualStep_self_unlocks C f w e hf)
    · exact ih _ he2

theorem uaStep_ach_mono (C : Catalog) (f : Option (List (String × Bool)))
    (w : SaveData) (c : Challenge) {x : String} (h : x ∈ w.achievements) :
    x ∈ (unlockAllStep C f w c).achievements := by
  unfold unlockAllStep
  split
  · exact h
  · simp [mem_setAdd, h]

theorem uaStep_self_ach (C : Catalog) (f : Option (List (String × Bool)))
    (w : SaveData) (c : Challenge) (hf : dlcSkip f c.dlc = false) :
    c.achievement ∈ (unlockAllStep C f w c).achievements := by
  unfold unlockAllStep
  rw [if_neg (by simp [hf])]
  simp [mem_setAdd]

theorem uaFold_ach_mono (C : Catalog) (f : Option (List (String × Bool)))
    (l : List Challenge) (w : SaveData) {x : String} (h : x ∈ w.achievements) :
    x ∈ (l.foldl (unlockAllStep C f) w).achievements := by
  induction l generalizing w with
  | nil => exact h
  | cons c l ih => exact ih _ (uaStep_ach_mono C f w c h)

theorem uaFold_self_ach (C : Catalog) (f : Option (List (String × Bool)))
    (l : List Challenge) (c : Challenge) (hf : dlcSkip f c.dlc = false) :
    ∀ w : SaveData, c ∈ l → c.achievement ∈ (l.foldl (unlockAllStep C f) w).achievements := by
  induction l with
  | nil => intro w hc; cases hc
  | cons c' l ih =>
    intro w hc
    rcases List.mem_cons.mp hc with rfl | hc2
    · exact uaFold_ach_mono C f l _ (uaStep_self_ach C f w c hf)
    · exact ih _ hc2

/-- C4: after `unlockAll` with no DLC filter, every challenge of the
catalog has its achievement id in the achievements collection, and
every logbook entry of the catalog — of every category — satisfies
`isLogbookEntryUnlocked`. -/
theorem claim_C4 (C : Catalog) (s : SaveData) :
    (∀ ch ∈ C.challenges, ch.achievement ∈ (unlockAll C s none).achievements) ∧
    (∀ e ∈ C.logbookEntries, isLogbookEntryUnlocked (unlockAll C s none) e = true) := by
  constructor
  · intro ch hch
    unfold unlockAll unlockAllLogbook
    dsimp only
    apply ualFold_ach_mono
    show ch.achievement ∈ jsDedup _
    rw [mem_jsDedup]
    exact uaFold_self_ach C none C.challenges ch rfl _ hch
  · intro e he
    have hmem : e.unlockId ∈ (unlockAll C s none).unlocks := by
      unfold unlockAll unlockAllLogbook
      dsimp only
      exact ualFold_self_unlocks C none C.logbookEntries e rfl _ he
    unfold isLogbookEntryUnlocked
    rw [contains_iff.mpr hmem]
    simp

/-- Witness for C4 at a concrete catalog and state. -/
theorem claim_C4_witness :
    isLogbookEntryUnlocked (unlockAll catShared emptySave none) entShared = true :=
  (claim_C4 catShared emptySave).2 entShared (by decide)

/-! ## The challenges-to-disable loop of `toggleLogbookEntry` -/

theorem disableFold_ach {C : Catalog} {cs : List Challenge} {w : SaveData} {x : String} :
    x ∈ (cs.foldl (applyDisableChallenge C) w).achievements ↔
      x ∈ w.achievements ∧ ∀ c ∈ cs, x ≠ c.achievement := by
  induction cs generalizing w with
  | nil => simp
  | cons c cs ih =>
    show x ∈ (cs.foldl _ (applyDisableChallenge C w c)).achievements ↔ _
    rw [ih]
    unfold applyDisableChallenge
    dsimp only
    rw [mem_setDelete]
    simp only [List.forall_mem_cons]
    tauto

theorem disableFold_unv {C : Catalog} {cs : List Challenge} {w : SaveData} {x : String} :
    x ∈ (cs.foldl (applyDisableChallenge C) w).unviewedAchievements ↔
      x ∈ w.unviewedAchievements ∧ ∀ c ∈ cs, x ≠ c.achievement := by
  induction cs generalizing w with
  | nil => simp
  | cons c cs ih =>
    show x ∈ (cs.foldl _ (applyDisableChallenge C w c)).unviewedAchievements ↔ _
    rw [ih]
    unfold applyDisableChallenge
    dsimp only
    rw [mem_setDelete]
    simp only [List.forall_mem_cons]
    tauto

theorem disableFold_vU {C : Catalog} {cs : List Challenge} {w : SaveData} {x : String} :
    x ∈ (cs.foldl (applyDisableChallenge C) w).viewedUnlockables ↔
      x ∈ w.viewedUnlockables ∧ ∀ c ∈ cs, x ∉ c.unlocks := by
  induction cs generalizing w with
  | nil => simp
  | cons c cs ih =>
    show x ∈ (cs.foldl _ (applyDisableChallenge C w c)).viewedUnlockables ↔ _
    rw [ih]
    unfold applyDisableChallenge
    dsimp only
    rw [mem_setDeleteAll]
    simp only [List.forall_mem_cons]
    tauto

theorem disableFold_unl {C : Catalog} {cs : List Challenge} {w : SaveData} {x : String} :
    x ∈ (cs.foldl (applyDisableChallenge C) w).unlocks ↔
      x ∈ w.unlocks ∧ ∀ c ∈ cs, x ∉ c.unlocks ∧
        x ∉ (getLogbookEntriesForChallenge C c.id).map (·.unlockId) := by
  induction cs generalizing w with
  | nil => simp
  | cons c cs ih =>
    show x ∈ (cs.foldl _ (applyDisableChallenge C w c)).unlocks ↔ _
    rw [ih]
    unfold applyDisableChallenge
    dsimp only
    rw [mem_setDeleteAll, mem_setDeleteAll]
    simp only [List.forall_mem_cons]
    tauto

theorem disableFold_vv {C : Catalog} {cs : List Challenge} {w : SaveData} {x : String} :
    x ∈ (cs.foldl (applyDisableChallenge C) w).viewedViewables ↔
      x ∈ w.viewedViewables ∧ ∀ c ∈ cs,
        x ∉ (getLogbookEntriesForChallenge C c.id).map (·.unlockId) := by
  induction cs generalizing w with
  | nil => simp
  | cons c cs ih =>
    show x ∈ (cs.foldl _ (applyDisableChallenge C w c)).viewedViewables ↔ _
    rw [ih]
    unfold applyDisableChallenge
    dsimp only
    rw [mem_setDeleteAll]
    simp only [List.forall_mem_cons]
    tauto

theorem disableFold_dp {C : Catalog} {cs : List Challenge} {w : SaveData} {x : String} :
    x ∈ (cs.foldl (applyDisableChallenge C) w).discoveredPickups ↔
      x ∈ w.discoveredPickups ∧ ∀ c ∈ cs,
        x ∉ (getLogbookEntriesForChallenge C c.id).filterMap (·.pickupId) := by
  induction cs generalizing w with
  | nil => simp
  | cons c cs ih =>
    show x ∈ (cs.foldl _ (applyDisableChallenge C w c)).discoveredPickups ↔ _
    rw [ih]
    unfold applyDisableChallenge
    dsimp only
    rw [mem_setDeleteAll]
    simp only [List.forall_mem_cons]
    tauto

/-- The disable branch of `toggleLogbookEntry`, written as the
challenges-to-disable loop over the pre-disable state. -/
theorem toggleLog_false_eq (C : Catalog) (s : SaveData) (E : LogbookEntry) :
    toggleLogbookEntry C s E false =
      ((getChallengesForLogbookEntry C E.id).filter fun c =>
        shouldDisableChallengeForEntry C c E (jsDedup s.viewedViewables)).foldl
        (applyDisableChallenge C) (preDisable C s E) := rfl

/-- C2: on disable, the set of linked challenges to disable is decided
by `shouldDisableChallengeForEntry` on the pre-mutation viewed-viewables
snapshot; the rule is an `or` of the single-entry case and the
all-other-entries-absent case; a disabled challenge loses its
achievement id, its unviewed flag, its own unlock ids, and the markers
of every entry it links to; a linked challenge the rule does not select
keeps its achievement id (when no selected challenge shares it). -/
theorem claim_C2 (C : Catalog) (s : SaveData) (E : LogbookEntry) (ch : Challenge)
    (hch : ch ∈ getChallengesForLogbookEntry C E.id) :
    (shouldDisableChallengeForEntry C ch E (jsDedup s.viewedViewables) =
      ((getLogbookEntriesForChallenge C ch.id).length == 1 ||
       (getLogbookEntriesForChallenge C ch.id).all fun oe =>
         oe.id == E.id || !((jsDedup s.viewedViewables).contains oe.unlockId))) ∧
    (shouldDisableChallengeForEntry C ch E (jsDedup s.viewedViewables) = true →
      ch.achievement ∉ (toggleLogbookEntry C s E false).achievements ∧
      ch.achievement ∉ (toggleLogbookEntry C s E false).unviewedAchievements ∧
      (∀ u ∈ ch.unlocks, u ∉ (toggleLogbookEntry C s E false).viewedUnlockables ∧
        u ∉ (toggleLogbookEntry C s E false).unlocks) ∧
      (∀ oe ∈ getLogbookEntriesForChallenge C ch.id,
        oe.unlockId ∉ (toggleLogbookEntry C s E false).viewedViewables ∧
        oe.unlockId ∉ (toggleLogbookEntry C s E false).unlocks ∧
        ∀ p ∈ oe.pickupId.toList, p ∉ (toggleLogbookEntry C s E false).discoveredPickups)) ∧
    (shouldDisableChallengeForEntry C ch E (jsDedup s.viewedViewables) = false →
      (∀ c2 ∈ getChallengesForLogbookEntry C E.id,
        shouldDisableChallengeForEntry C c2 E (jsDedup s.viewedViewables) = true →
        c2.achievement ≠ ch.achievement) →
      (ch.achievement ∈ (toggleLogbookEntry C s E false).achievements ↔
        ch.achievement ∈ s.achievements)) := by
  refine ⟨?_, ?_, ?_⟩
  · unfold shouldDisableChallengeForEntry
    dsimp only
    cases hlen : ((getLogbookEntriesForChallenge C ch.id).length == 1) <;> simp [hlen]
  · intro hSD
    have hmem : ch ∈ (getChallengesForLogbookEntry C E.id).filter fun c =>
        shouldDisableChallengeForEntry C c E (jsDedup s.viewedViewables) :=
      List.mem_filter.mpr ⟨hch, hSD⟩
    rw [toggleLog_false_eq]
    refine ⟨?_, ?_, ?_, ?_⟩
    · intro hx
      exact (disableFold_ach.mp hx).2 ch hmem rfl
    · intro hx
      exact (disableFold_unv.mp hx).2 ch hmem rfl
    · intro u hu
      constructor
      · intro hx
        exact (disableFold_vU.mp hx).2 ch hmem hu
      · intro hx
        exact ((disableFold_unl.mp hx).2 ch hmem).1 hu
    · intro oe hoe
      refine ⟨?_, ?_, ?_⟩
      · intro hx
        exact (disableFold_vv.mp hx).2 ch hmem (List.mem_map.mpr ⟨oe, hoe, rfl⟩)
      · intro hx
        exact ((disableFold_unl.mp hx).2 ch hmem).2 (List.mem_map.mpr ⟨oe, hoe, rfl⟩)
      · intro p hp hx
        have hps : oe.pickupId = some p := by
          cases hpk : oe.pickupId <;> simp [hpk, Option.toList] at hp <;> simp [hp]
        exact (disableFold_dp.mp hx).2 ch hmem
          (List.mem_filterMap.mpr ⟨oe, hoe, hps⟩)
  · intro hSD hdist
    rw [toggleLog_false_eq, disableFold_ach]
    have hpre : (preDisable C s E).achievements = jsDedup s.achievements := rfl
    rw [hpre, mem_jsDedup]
    constructor
    · exact fun h => h.1
    · intro h
      refine ⟨h, ?_⟩
      intro c2 hc2
      have := List.mem_filter.mp hc2
      exact fun heq => hdist c2 this.1 this.2 (heq ▸ rfl)

/-- Witness for C2 at a concrete catalog and state: the challenge of
`catTwo` is disabled when its second entry is absent from the
snapshot. -/
theorem claim_C2_witness :
    "AchT" ∉ (toggleLogbookEntry catTwo saveT entP false).achievements :=
  ((claim_C2 catTwo saveT entP chTwo (by decide)).2.1 (by decide)).1

/-! ## DLC filtering of the bulk unlock -/

theorem challengeById_mem {C : Catalog} {cid : String} {c : Challenge}
    (h : challengeById C cid = some c) : c ∈ C.challenges := by
  unfold challengeById at h
  exact (List.mem_filter.mp (List.mem_of_mem_getLast? h)).1

theorem challengesFor_sub {C : Catalog} {eid : String} {c : Challenge}
    (h : c ∈ getChallengesForLogbookEntry C eid) : c ∈ C.challenges := by
  unfold getChallengesForLogbookEntry at h
  rw [List.mem_filterMap] at h
  obtain ⟨cid, _, hc⟩ := h
  exact challengeById_mem hc

theorem uaStep_ach_notmem {C : Catalog} {f : Option (List (String × Bool))}
    {w : SaveData} {c : Challenge} {x : String} (hx : x ∉ w.achievements)
    (hc : c.achievement = x → dlcSkip f c.dlc = true) :
    x ∉ (unlockAllStep C f w c).achievements := by
  unfold unlockAllStep
  split
  · exact hx
  · rename_i hskip
    dsimp only
    rw [mem_setAdd]
    rintro (h | rfl)
    · exact hx h
    · exact hskip (hc rfl)

theorem uaFold_ach_notmem {C : Catalog} {f : Option (List (String × Bool))}
    {cs : List Challenge} {x : String}
    (hall : ∀ c ∈ cs, c.achievement = x → dlcSkip f c.dlc = true) :
    ∀ {w : SaveData}, x ∉ w.achievements → x ∉ (cs.foldl (unlockAllStep C f) w).achievements := by
  induction cs with
  | nil => exact fun hx => hx
  | cons c cs ih =>
    intro w hx
    exact ih (fun c2 h2 => hall c2 (List.mem_cons_of_mem _ h2))
      (uaStep_ach_notmem hx (hall c (List.mem_cons_self _ _)))

theorem ualChallengeStep_ach_notmem {f : Option (List (String × Bool))}
    {w : SaveData} {c : Challenge} {x : String} (hx : x ∉ w.achievements)
    (hc : c.achievement = x → dlcSkip f c.dlc = true) :
    x ∉ (ualChallengeStep f w c).achievements := by
  unfold ualChallengeStep
  split
  · exact hx
  · rename_i hskip
    dsimp only
    rw [mem_setAdd]
    rintro (h | rfl)
    · exact hx h
    · exact hskip (hc rfl)

theorem ualInner_ach_notmem {f : Option (List (String × Bool))}
    {cs : List Challenge} {x : String}
    (hall : ∀ c ∈ cs, c.achievement = x → dlcSkip f c.dlc = true) :
    ∀ {w : SaveData}, x ∉ w.achievements →
      x ∉ (cs.foldl (ualChallengeStep f) w).achievements := by
  induction cs with
  | nil => exact fun hx => hx
  | cons c cs ih =>
    intro w hx
    exact ih (fun c2 h2 => hall c2 (List.mem_cons_of_mem _ h2))
      (ualChallengeStep_ach_notmem hx (hall c (List.mem_cons_self _ _)))

theorem ualStep_ach_notmem {C : Catalog} {f : Option (List (String × Bool))}
    {w : SaveData} {e : LogbookEntry} {x : String} (hx : x ∉ w.achievements)
    (hall : ∀ c ∈ C.challenges, c.achievement = x → dlcSkip f c.dlc = true) :
    x ∉ (unlockAllLogbookStep C f w e).achievements := by
  unfold unlockAllLogbookStep
  split
  · exact hx
  · exact ualInner_ach_notmem
      (fun c hc => hall c (challengesFor_sub hc)) hx

theorem ualFold_ach_notmem {C : Catalog} {f : Option (List (String × Bool))}
    {l : List LogbookEntry} {x : String}
    (hall : ∀ c ∈ C.challenges, c.achievement = x → dlcSkip f c.dlc = true) :
    ∀ {w : SaveData}, x ∉ w.achievements →
      x ∉ (l.foldl (unlockAllLogbookStep C f) w).achievements := by
  induction l with
  | nil => exact fun hx => hx
  | cons e l ih =>
    intro w hx
    exact ih (ualStep_ach_notmem hx hall)

/-- C9 (amended): `unlockAll` skips a challenge exactly when the DLC
filter explicitly maps its non-base DLC tag to `false`; a tag the
filter does not mention is treated as allowed.  Every non-skipped
challenge gets its achievement id added; a skipped challenge's
achievement id is not added as long as every catalog challenge bearing
that id is also skipped. -/
theorem claim_C9 (C : Catalog) (s : SaveData) (f : List (String × Bool)) :
    (∀ ch ∈ C.challenges, dlcSkip (some f) ch.dlc = false →
      ch.achievement ∈ (unlockAll C s (some f)).achievements) ∧
    (∀ ch ∈ C.challenges, dlcSkip (some f) ch.dlc = true →
      ch.achievement ∉ s.achievements →
      (∀ c2 ∈ C.challenges, c2.achievement = ch.achievement →
        dlcSkip (some f) c2.dlc = true) →
      ch.achievement ∉ (unlockAll C s (some f)).achievements) := by
  constructor
  · intro ch hch hskip
    unfold unlockAll unlockAllLogbook
    dsimp only
    apply ualFold_ach_mono
    show ch.achievement ∈ jsDedup _
    rw [mem_jsDedup]
    exact uaFold_self_ach C (some f) C.challenges ch hskip _ hch
  · intro ch hch hskip hnot hall
    unfold unlockAll unlockAllLogbook
    dsimp only
    apply ualFold_ach_notmem hall
    show ch.achievement ∉ jsDedup _
    rw [mem_jsDedup]
    apply uaFold_ach_notmem hall
    show ch.achievement ∉ jsDedup s.achievements
    rw [mem_jsDedup]
    exact hnot

/-- Counterexample to C9 as stated: with the empty filter record, a
challenge whose DLC tag is `sotv` is *not* explicitly allowed, yet
`unlockAll` still applies its enable effect. -/
theorem claim_C9_cex :
    "AchSotv" ∈ (unlockAll catSotv emptySave (some [])).achievements ∧
    "AchSotv" ∉ emptySave.achievements := by
  decide

/-- Witness for the amended C9: with the filter explicitly mapping
`sotv` to `false`, the challenge is skipped. -/
theorem claim_C9_witness :
    "AchSotv" ∉ (unlockAll catSotv emptySave (some [("sotv", false)])).achievements :=
  (claim_C9 catSotv emptySave [("sotv", false)]).2 chSotv (by decide) (by decide)
    (by decide) (by decide)

/-! ## Counters alone never satisfy the unlock predicate -/

theorem contains_false {l : List String} {x : String} (h : x ∉ l) :
    l.contains x = false := by
  cases hc : l.contains x
  · rfl
  · exact absurd (contains_iff.mp hc) h

theorem mapHas_false {m : List (String × String)} {k : String}
    (h : ∀ p ∈ m, p.1 ≠ k) : mapHas m k = false := by
  cases hm : mapHas m k
  · rfl
  · obtain ⟨p, hp, he⟩ := mapHas_iff.mp hm
    exact absurd he (h p hp)

/-- The stats failsafe returns false whenever `unlocks` holds no
log-format id and the stats map holds no `Logs.`-prefixed key — i.e.
genuine progress counters alone never satisfy it. -/
theorem statsFailsafe_counters_only (s : SaveData) (E : LogbookEntry)
    (h7 : ∀ u ∈ s.unlocks,
      strStartsWith u "Logs." = false ∧ strStartsWith u "Log." = false)
    (h8 : ∀ kv ∈ s.stats, strStartsWith kv.1 "Logs." = false) :
    statsFailsafe s E = false := by
  unfold statsFailsafe
  dsimp only
  generalize (if strStartsWith E.unlockId "Logs." = true then
      match strSplitOn E.unlockId "." with
      | _ :: p1 :: _ => stripSuf p1 ".0"
      | _ => ""
    else
      if strContains E.unlockId "/Logbook/" = true then getInternalBodyName E.unlockId
      else "") = b
  split
  · rfl
  · split
    · apply contains_false
      intro hmem
      rename_i hpre
      have hpre2 : strStartsWith b "Logs." = true ∨ strStartsWith b "Log." = true := by
        simpa using hpre
      rcases hpre2 with hp | hp
      · rw [(h7 b hmem).1] at hp
        simp at hp
      · rw [(h7 b hmem).2] at hp
        simp at hp
    · have hpre : strStartsWith ("Logs." ++ b ++ "Body.0") "Logs." = true :=
        strStartsWith_extend "Body.0" (strStartsWith_append "Logs." b)
      have hm : mapHas s.stats ("Logs." ++ b ++ "Body.0") = false := by
        apply mapHas_false
        intro p hp he
        have h8p := h8 p hp
        rw [he, hpre] at h8p
        simp at h8p
      have hc : s.unlocks.contains ("Logs." ++ b ++ "Body.0") = false := by
        apply contains_false
        intro hmem
        have h7p := (h7 _ hmem).1
        rw [hpre] at h7p
        simp at h7p
      rw [hm, hc]
      rfl

/-- C8: when a logbook entry's canonical unlock id, its aliases, its
legacy viewable path, its pickup id and its resolved drone pickup id
are all absent from `unlocks`, `viewedViewables` and
`discoveredPickups`, and the state carries no log-format unlock id at
all (no `Logs.`/`Log.` string in `unlocks`, no `Logs.`-prefixed key in
the stats map), then any progress counters present in the stats map do
not make `isLogbookEntryUnlocked` return true. -/
theorem claim_C8 (s : SaveData) (E : LogbookEntry)
    (h1 : E.unlockId ∉ s.unlocks)
    (h2 : E.unlockId ∉ s.viewedViewables)
    (h3 : ∀ a ∈ getLogbookAliases E.unlockId, a ∉ s.viewedViewables)
    (h4 : ∀ v ∈ (convertToViewableId E).toList, v ∉ s.viewedViewables)
    (h5 : ∀ p ∈ E.pickupId.toList, p ∉ s.discoveredPickups)
    (h6 : ∀ p ∈ (getDronePickupId E.unlockId).toList, p ∉ s.discoveredPickups)
    (h7 : ∀ u ∈ s.unlocks,
      strStartsWith u "Logs." = false ∧ strStartsWith u "Log." = false)
    (h8 : ∀ kv ∈ s.stats, strStartsWith kv.1 "Logs." = false) :
    isLogbookEntryUnlocked s E = false := by
  have c1 : s.unlocks.contains E.unlockId = false := contains_false h1
  have c2 : s.viewedViewables.contains E.unlockId = false := contains_false h2
  have c3 : (getLogbookAliases E.unlockId).any
      (fun a => s.viewedViewables.contains a) = false :=
    List.any_eq_false.mpr fun a ha hc => h3 a ha (contains_iff.mp hc)
  have c4 : (match convertToViewableId E with
      | some v => s.viewedViewables.contains v
      | none => false) = false := by
    cases hcv : convertToViewableId E with
    | none => rfl
    | some v => exact contains_false (h4 v (by simp [hcv]))
  have c5 : (match E.pickupId with
      | some p => s.discoveredPickups.contains p
      | none => false) = false := by
    cases hpk : E.pickupId with
    | none => rfl
    | some p => exact contains_false (h5 p (by simp [hpk]))
  have c6 : droneFallback s E = false := by
    unfold droneFallback
    cases hdp : getDronePickupId E.unlockId with
    | none => simp
    | some p =>
      have hnp := contains_false (h6 p (by simp [hdp]))
      simp [hdp, hnp]
      intro _ _ hmem
      rw [contains_iff.mpr hmem] at hnp
      simp at hnp
  have c7 : statsFailsafe s E = false := statsFailsafe_counters_only s E h7 h8
  unfold isLogbookEntryUnlocked
  rw [c1, c2, c3, c4, c5, c6, c7]
  rfl

/-- Witness for C8: a monsters entry whose kill and death counters are
present while every unlock marker is absent is still reported
locked. -/
theorem claim_C8_witness : isLogbookEntryUnlocked saveCounters entMagma = false :=
  claim_C8 saveCounters entMagma (by decide) (by decide) (by decide) (by decide)
    (by decide) (by decide) (by decide) (by decide)

/-! ## `lockAllLogbook`: canonical ids, tracked keys and the frame -/

theorem lockDerive_full_pre (u : String) :
    (lockDerive u).2 = "" ∨ strStartsWith ((lockDerive u).2) "Logs." = true ∨
      strStartsWith ((lockDerive u).2) "Log." = true := by
  unfold lockDerive
  dsimp only
  split
  · split <;> simp
  · split
    · rename_i hcond
      right
      simpa using hcond
    · simp

theorem lockKey_pre (e : LogbookEntry) :
    lockKey e = "" ∨ strStartsWith (lockKey e) "Logs." = true ∨
      strStartsWith (lockKey e) "Log." = true := by
  unfold lockKey
  dsimp only
  split
  · split
    · right; left
      exact strStartsWith_extend _ (by decide)
    · split
      · split
        · right; left
          exact strStartsWith_extend "Body.0" (strStartsWith_append "Logs." _)
        · rename_i hfull
          rcases lockDerive_full_pre e.unlockId with h0 | h | h
          · exact absurd h0 (by simpa using hfull)
          · exact Or.inr (Or.inl h)
          · exact Or.inr (Or.inr h)
      · rcases lockDerive_full_pre e.unlockId with h0 | h | h
        · exact Or.inl h0
        · exact Or.inr (Or.inl h)
        · exact Or.inr (Or.inr h)
  · exact Or.inl rfl

theorem lockStatKeys_tracked {e : LogbookEntry} {k : String} (hk : k ∈ lockStatKeys e) :
    ∃ p ∈ trackedStatPre, strStartsWith k p = true := by
  unfold lockStatKeys at hk
  dsimp only at hk
  have hkey : ∀ k2, k2 ∈ (if (lockKey e == "") = true then ([] : List String)
      else [lockKey e]) → ∃ p ∈ trackedStatPre, strStartsWith k2 p = true := by
    intro k2 hk2
    split at hk2
    · cases hk2
    · rename_i hne
      rcases List.mem_singleton.mp hk2 with rfl
      rcases lockKey_pre e with h0 | h | h
      · exact absurd h0 (by simpa using hne)
      · exact ⟨"Logs.", by decide, h⟩
      · exact ⟨"Log.", by decide, h⟩
  split at hk
  · rw [List.mem_append] at hk
    rcases hk with hk | hk
    · split at hk
      · cases hk
      · split at hk
        · rcases List.mem_cons.mp hk with rfl | hk
          · exact ⟨"timesSummoned.", by decide,
              strStartsWith_extend "Body" (strStartsWith_append "timesSummoned." _)⟩
          · rcases List.mem_singleton.mp hk with rfl
            exact ⟨"totalTimeAlive.", by decide,
              strStartsWith_extend "Body" (strStartsWith_append "totalTimeAlive." _)⟩
        · split at hk
          · rcases List.mem_cons.mp hk with rfl | hk
            · exact ⟨"killsAgainst.", by decide,
                strStartsWith_extend "Body" (strStartsWith_append "killsAgainst." _)⟩
            · rcases List.mem_singleton.mp hk with rfl
              exact ⟨"deathsFrom.", by decide,
                strStartsWith_extend "Body" (strStartsWith_append "deathsFrom." _)⟩
          · split at hk
            · rcases List.mem_cons.mp hk with rfl | hk
              · exact ⟨"totalTimeAlive.", by decide,
                  strStartsWith_extend "Body" (strStartsWith_append "totalTimeAlive." _)⟩
              · rcases List.mem_cons.mp hk with rfl | hk
                · exact ⟨"timesPicked.", by decide,
                    strStartsWith_extend "Body" (strStartsWith_append "timesPicked." _)⟩
                · rcases List.mem_singleton.mp hk with rfl
                  exact ⟨"totalWins.", by decide,
                    strStartsWith_extend "Body" (strStartsWith_append "totalWins." _)⟩
            · cases hk
    · exact hkey _ hk
  · cases hk

theorem lockEntryStep_unlocks_antitone {w : SaveData} {e : LogbookEntry} {x : String}
    (hx : x ∉ w.unlocks) : x ∉ (lockEntryStep w e).unlocks := by
  show x ∉ (if (lockKey e == "") = true then _ else _)
  split <;> intro hmem
  · exact hx (mem_setDelete.mp hmem).1
  · exact hx (mem_setDelete.mp (mem_setDelete.mp hmem).1).1

theorem lockEntryStep_unlocks_self {w : SaveData} {e : LogbookEntry} :
    e.unlockId ∉ (lockEntryStep w e).unlocks := by
  show e.unlockId ∉ (if (lockKey e == "") = true then _ else _)
  split <;> intro hmem
  · exact (mem_setDelete.mp hmem).2 rfl
  · exact (mem_setDelete.mp (mem_setDelete.mp hmem).1).2 rfl

theorem lockEntryStep_vv_antitone {w : SaveData} {e : LogbookEntry} {x : String}
    (hx : x ∉ w.viewedViewables) : x ∉ (lockEntryStep w e).viewedViewables := by
  intro hmem
  exact hx (mem_setDelete.mp (mem_setDeleteAll.mp hmem).1).1

theorem lockEntryStep_vv_self {w : SaveData} {e : LogbookEntry} :
    e.unlockId ∉ (lockEntryStep w e).viewedViewables := by
  intro hmem
  exact (mem_setDelete.mp (mem_setDeleteAll.mp hmem).1).2 rfl

theorem lockFold_unlocks_antitone {l : List LogbookEntry} {x : String} :
    ∀ {w : SaveData}, x ∉ w.unlocks → x ∉ (l.foldl lockEntryStep w).unlocks := by
  induction l with
  | nil => exact fun hx => hx
  | cons e l ih => exact fun hx => ih (lockEntryStep_unlocks_antitone hx)

theorem lockFold_vv_antitone {l : List LogbookEntry} {x : String} :
    ∀ {w : SaveData}, x ∉ w.viewedViewables →
      x ∉ (l.foldl lockEntryStep w).viewedViewables := by
  induction l with
  | nil => exact fun hx => hx
  | cons e l ih => exact fun hx => ih (lockEntryStep_vv_antitone hx)

theorem lockFold_unlocks_absent {l : List LogbookEntry} {e : LogbookEntry} (he : e ∈ l) :
    ∀ w : SaveData, e.unlockId ∉ (l.foldl lockEntryStep w).unlocks := by
  induction l with
  | nil => cases he
  | cons e' l ih =>
    intro w
    rcases List.mem_cons.mp he with rfl | he2
    · rw [List.foldl_cons]
      exact lockFold_unlocks_antitone lockEntryStep_unlocks_self
    · rw [List.foldl_cons]
      exact ih he2 _

theorem lockFold_vv_absent {l : List LogbookEntry} {e : LogbookEntry} (he : e ∈ l) :
    ∀ w : SaveData, e.unlockId ∉ (l.foldl lockEntryStep w).viewedViewables := by
  induction l with
  | nil => cases he
  | cons e' l ih =>
    intro w
    rcases List.mem_cons.mp he with rfl | he2
    · rw [List.foldl_cons]
      exact lockFold_vv_antitone lockEntryStep_vv_self
    · rw [List.foldl_cons]
      exact ih he2 _

theorem lockEntryStep_stats_frame {w : SaveData} {e : LogbookEntry} {kv : String × String}
    (hk : ∀ p ∈ trackedStatPre, strStartsWith kv.1 p = false) :
    kv ∈ (lockEntryStep w e).stats ↔ kv ∈ w.stats := by
  show kv ∈ (lockStatKeys e).foldl mapDelete w.stats ↔ _
  rw [mem_foldl_mapDelete]
  constructor
  · exact fun h => h.1
  · intro h
    refine ⟨h, ?_⟩
    intro k hkk heq
    obtain ⟨p, hp, hsp⟩ := lockStatKeys_tracked hkk
    have := hk p hp
    rw [heq, hsp] at this
    simp at this

theorem lockEntryStep_stats_sub {w : SaveData} {e : LogbookEntry} {kv : String × String}
    (h : kv ∈ (lockEntryStep w e).stats) : kv ∈ w.stats := by
  have h2 : kv ∈ (lockStatKeys e).foldl mapDelete w.stats := h
  exact (mem_foldl_mapDelete.mp h2).1

theorem lockFold_stats_frame {l : List LogbookEntry} {kv : String × String}
    (hk : ∀ p ∈ trackedStatPre, strStartsWith kv.1 p = false) :
    ∀ {w : SaveData}, kv ∈ w.stats → kv ∈ (l.foldl lockEntryStep w).stats := by
  induction l with
  | nil => exact fun h => h
  | cons e l ih => exact fun h => ih ((lockEntryStep_stats_frame hk).mpr h)

theorem lockFold_stats_sub {l : List LogbookEntry} {kv : String × String} :
    ∀ {w : SaveData}, kv ∈ (l.foldl lockEntryStep w).stats → kv ∈ w.stats := by
  induction l with
  | nil => exact fun h => h
  | cons e l ih => exact fun h => lockEntryStep_stats_sub (ih h)

theorem lockChallengeStep_stats (C : Catalog) (w : SaveData) (aid : String) :
    (lockChallengeStep C w aid).stats = w.stats := by
  unfold lockChallengeStep
  dsimp only
  split <;> rfl

theorem lockChallengeStep_vv (C : Catalog) (w : SaveData) (aid : String) :
    (lockChallengeStep C w aid).viewedViewables = w.viewedViewables := by
  unfold lockChallengeStep
  dsimp only
  split <;> rfl

theorem lockChallengeStep_unlocks_antitone {C : Catalog} {w : SaveData} {aid x : String}
    (hx : x ∉ w.unlocks) : x ∉ (lockChallengeStep C w aid).unlocks := by
  unfold lockChallengeStep
  dsimp only
  split
  · exact hx
  · intro hmem
    exact hx (mem_setDeleteAll.mp hmem).1

theorem lockChalFold_stats (C : Catalog) (l : List String) :
    ∀ w : SaveData, (l.foldl (lockChallengeStep C) w).stats = w.stats := by
  induction l with
  | nil => exact fun _ => rfl
  | cons aid l ih =>
    intro w
    rw [List.foldl_cons, ih, lockChallengeStep_stats]

theorem lockChalFold_vv (C : Catalog) (l : List String) :
    ∀ w : SaveData, (l.foldl (lockChallengeStep C) w).viewedViewables =
      w.viewedViewables := by
  induction l with
  | nil => exact fun _ => rfl
  | cons aid l ih =>
    intro w
    rw [List.foldl_cons, ih, lockChallengeStep_vv]

theorem lockChalFold_unlocks_antitone {C : Catalog} {l : List String} {x : String} :
    ∀ {w : SaveData}, x ∉ w.unlocks → x ∉ (l.foldl (lockChallengeStep C) w).unlocks := by
  induction l with
  | nil => exact fun hx => hx
  | cons aid l ih => exact fun hx => ih (lockChallengeStep_unlocks_antitone hx)

/-- C6 (amended): after `lockAllLogbook` every catalog entry's
canonical unlock id is absent from `unlocks` and `viewedViewables`, and
every stats key outside all tracked families keeps exactly its pair
from the input state (the result's stats are a sub-multiset of the
input's); but logbook-created counters are removed only when the
lock-time key derivation reproduces the creation-time keys — the
per-stage `totalTimesVisited.`/`totalTimesCleared.` environment
counters and the stage-variant unlock ids persist (see the
counterexample). -/
theorem claim_C6 (C : Catalog) (s : SaveData) :
    (∀ e ∈ C.logbookEntries,
      e.unlockId ∉ (lockAllLogbook C s).unlocks ∧
      e.unlockId ∉ (lockAllLogbook C s).viewedViewables) ∧
    (∀ kv ∈ s.stats, (∀ p ∈ trackedStatPre, strStartsWith kv.1 p = false) →
      kv ∈ (lockAllLogbook C s).stats) ∧
    (∀ kv ∈ (lockAllLogbook C s).stats, kv ∈ s.stats) := by
  unfold lockAllLogbook
  dsimp only
  refine ⟨?_, ?_, ?_⟩
  · intro e he
    constructor
    · exact lockChalFold_unlocks_antitone (lockFold_unlocks_absent he _)
    · rw [lockChalFold_vv]
      exact lockFold_vv_absent he _
  · intro kv hkv hk
    rw [lockChalFold_stats]
    exact lockFold_stats_frame hk hkv
  · intro kv hkv
    rw [lockChalFold_stats] at hkv
    exact lockFold_stats_sub (w := dedup6 s) hkv

/-- Counterexample to C6 as stated: enabling the `artifactworld`
environment entry creates the per-stage visit/clear counters and the
stage-variant unlock ids, and `lockAllLogbook` leaves them in place. -/
theorem claim_C6_cex :
    mapHas (lockAllLogbook catEnv
        (toggleLogbookEntry catEnv emptySave envAmbry true)).stats
      "totalTimesVisited.artifactworld" = true ∧
    "Logs.Stages.artifactworld01" ∈ (lockAllLogbook catEnv
        (toggleLogbookEntry catEnv emptySave envAmbry true)).unlocks := by
  decide

/-- Witness for the amended C6: a counter unrelated to every tracked
family survives `lockAllLogbook` with its value. -/
theorem claim_C6_witness :
    ("totalLoginSeconds", "42") ∈ (lockAllLogbook catEnv saveMisc).stats :=
  (claim_C6 catEnv saveMisc).2.1 ("totalLoginSeconds", "42") (by decide) (by decide)

/-! ## Membership characterization of `toggleAchievement` -/

theorem toggleAch_enable_ach {C : Catalog} {s : SaveData} {aid : String} {ch : Challenge}
    (hf : C.challenges.find? (fun c => c.achievement == aid) = some ch) (x : String) :
    x ∈ (toggleAchievement C s aid true).achievements ↔
      x ∈ s.achievements ∨ x = aid := by
  unfold toggleAchievement dedup6
  simp [hf, mem_setAdd, mem_jsDedup]

theorem toggleAch_enable_unv {C : Catalog} {s : SaveData} {aid : String} {ch : Challenge}
    (hf : C.challenges.find? (fun c => c.achievement == aid) = some ch) (x : String) :
    x ∈ (toggleAchievement C s aid true).unviewedAchievements ↔
      x ∈ s.unviewedAchievements ∨ x = aid := by
  unfold toggleAchievement dedup6
  simp [hf, mem_setAdd, mem_jsDedup]

theorem toggleAch_enable_vU {C : Catalog} {s : SaveData} {aid : String} {ch : Challenge}
    (hf : C.challenges.find? (fun c => c.achievement == aid) = some ch) (x : String) :
    x ∈ (toggleAchievement C s aid true).viewedUnlockables ↔
      x ∈ s.viewedUnlockables ∨ x ∈ ch.unlocks := by
  unfold toggleAchievement dedup6
  simp [hf, mem_setAddAll, mem_jsDedup]

theorem toggleAch_enable_unl {C : Catalog} {s : SaveData} {aid : String} {ch : Challenge}
    (hf : C.challenges.find? (fun c => c.achievement == aid) = some ch) (x : String) :
    x ∈ (toggleAchievement C s aid true).unlocks ↔
      x ∈ s.unlocks ∨ x ∈ ch.unlocks ∨
        x ∈ (getLogbookEntriesForChallenge C ch.id).map (·.unlockId) := by
  unfold toggleAchievement dedup6
  simp [hf, mem_setAddAll, mem_jsDedup, or_assoc]

theorem toggleAch_enable_vv {C : Catalog} {s : SaveData} {aid : String} {ch : Challenge}
    (hf : C.challenges.find? (fun c => c.achievement == aid) = some ch) (x : String) :
    x ∈ (toggleAchievement C s aid true).viewedViewables ↔
      x ∈ s.viewedViewables ∨
        x ∈ (getLogbookEntriesForChallenge C ch.id).map (·.unlockId) := by
  unfold toggleAchievement dedup6
  simp [hf, mem_setAddAll, mem_jsDedup]

theorem toggleAch_enable_dp {C : Catalog} {s : SaveData} {aid : String} {ch : Challenge}
    (hf : C.challenges.find? (fun c => c.achievement == aid) = some ch) (x : String) :
    x ∈ (toggleAchievement C s aid true).discoveredPickups ↔
      x ∈ s.discoveredPickups ∨
        x ∈ (getLogbookEntriesForChallenge C ch.id).filterMap (·.pickupId) := by
  unfold toggleAchievement dedup6
  simp [hf, mem_setAddAll, mem_jsDedup]

theorem toggleAch_disable_ach {C : Catalog} {s : SaveData} {aid : String} {ch : Challenge}
    (hf : C.challenges.find? (fun c => c.achievement == aid) = some ch) (x : String) :
    x ∈ (toggleAchievement C s aid false).achievements ↔
      x ∈ s.achievements ∧ x ≠ aid := by
  unfold toggleAchievement dedup6
  simp [hf, mem_setDelete, mem_jsDedup]

theorem toggleAch_disable_unv {C : Catalog} {s : SaveData} {aid : String} {ch : Challenge}
    (hf : C.challenges.find? (fun c => c.achievement == aid) = some ch) (x : String) :
    x ∈ (toggleAchievement C s aid false).unviewedAchievements ↔
      x ∈ s.unviewedAchievements ∧ x ≠ aid := by
  unfold toggleAchievement dedup6
  simp [hf, mem_setDelete, mem_jsDedup]

theorem toggleAch_disable_vU {C : Catalog} {s : SaveData} {aid : String} {ch : Challenge}
    (hf : C.challenges.find? (fun c => c.achievement == aid) = some ch) (x : String) :
    x ∈ (toggleAchievement C s aid false).viewedUnlockables ↔
      x ∈ s.viewedUnlockables ∧ x ∉ ch.unlocks := by
  unfold toggleAchievement dedup6
  simp [hf, mem_setDeleteAll, mem_jsDedup]

theorem toggleAch_disable_unl {C : Catalog} {s : SaveData} {aid : String} {ch : Challenge}
    (hf : C.challenges.find? (fun c => c.achievement == aid) = some ch) (x : String) :
    x ∈ (toggleAchievement C s aid false).unlocks ↔
      x ∈ s.unlocks ∧ x ∉ ch.unlocks ∧
        x ∉ ((getLogbookEntriesForChallenge C ch.id).filter fun e =>
          !(isLogbookEntryProvidedByOtherChallenge C e aid
            (setDelete (jsDedup s.achievements) aid))).map (·.unlockId) := by
  unfold toggleAchievement dedup6
  simp [hf, mem_setDeleteAll, mem_jsDedup, and_assoc]

theorem toggleAch_disable_vv {C : Catalog} {s : SaveData} {aid : String} {ch : Challenge}
    (hf : C.challenges.find? (fun c => c.achievement == aid) = some ch) (x : String) :
    x ∈ (toggleAchievement C s aid false).viewedViewables ↔
      x ∈ s.viewedViewables ∧
        x ∉ ((getLogbookEntriesForChallenge C ch.id).filter fun e =>
          !(isLogbookEntryProvidedByOtherChallenge C e aid
            (setDelete (jsDedup s.achievements) aid))).map (·.unlockId) := by
  unfold toggleAchievement dedup6
  simp [hf, mem_setDeleteAll, mem_jsDedup]

theorem toggleAch_disable_dp {C : Catalog} {s : SaveData} {aid : String} {ch : Challenge}
    (hf : C.challenges.find? (fun c => c.achievement == aid) = some ch) (x : String) :
    x ∈ (toggleAchievement C s aid false).discoveredPickups ↔
      x ∈ s.discoveredPickups ∧
        x ∉ ((getLogbookEntriesForChallenge C ch.id).filter fun e =>
          !(isLogbookEntryProvidedByOtherChallenge C e aid
            (setDelete (jsDedup s.achievements) aid))).filterMap (·.pickupId) := by
  unfold toggleAchievement dedup6
  simp [hf, mem_setDeleteAll, mem_jsDedup]

/-- The provided-by-another-challenge check is false when no other
challenge of the entry carries an achievement in the given set. -/
theorem providedBy_false {C : Catalog} {e : LogbookEntry} {aid : String}
    {ach : List String}
    (h : ∀ c2 ∈ getChallengesForLogbookEntry C e.id,
      c2.achievement ≠ aid → c2.achievement ∉ ach) :
    isLogbookEntryProvidedByOtherChallenge C e aid ach = false := by
  unfold isLogbookEntryProvidedByOtherChallenge
  rw [List.any_eq_false]
  intro c2 hc2 hand
  rw [Bool.and_eq_true] at hand
  exact h c2 hc2 (by simpa using hand.1) (contains_iff.mp hand.2)

/-- The provided-by-another-challenge check is true when some other
linked challenge's achievement is in the given set. -/
theorem providedBy_true {C : Catalog} {e : LogbookEntry} {aid : String}
    {ach : List String} {c2 : Challenge}
    (hc2 : c2 ∈ getChallengesForLogbookEntry C e.id)
    (hne : c2.achievement ≠ aid) (hmem : c2.achievement ∈ ach) :
    isLogbookEntryProvidedByOtherChallenge C e aid ach = true := by
  unfold isLogbookEntryProvidedByOtherChallenge
  rw [List.any_eq_true]
  refine ⟨c2, hc2, ?_⟩
  rw [Bool.and_eq_true]
  exact ⟨by simpa using hne, contains_iff.mpr hmem⟩

/-! ## Enable-then-disable symmetry of `toggleAchievement` -/

/-- Counterexample to C3 as stated: when the achievement is already held
in the input state, enable-then-disable removes it, so the achievements
collection is not restored (the only held achievement is the
challenge's own, so no *other* held achievement grants its unlock
ids). -/
theorem claim_C3_cex :
    "AchA" ∈ saveHeldA.achievements ∧
    "AchA" ∉ (toggleAchievement catSolo
      (toggleAchievement catSolo saveHeldA "AchA" true) "AchA" false).achievements := by
  decide

/-- C3 (amended): enable-then-disable restores every collection (as
sets; stats, name and coins exactly) provided the challenge's markers
were not already present in the input state — its achievement id absent
from both achievement sets, its unlock ids absent from
`viewedUnlockables` and `unlocks`, its linked entries' markers absent —
and no other achievement held in the input grants its linked
entries. -/
theorem claim_C3 (C : Catalog) (s : SaveData) (A : Challenge)
    (hfind : C.challenges.find? (fun c => c.achievement == A.achievement) = some A)
    (hach : A.achievement ∉ s.achievements)
    (hunv : A.achievement ∉ s.unviewedAchievements)
    (hvU : ∀ u ∈ A.unlocks, u ∉ s.viewedUnlockables)
    (hunl : ∀ u ∈ A.unlocks, u ∉ s.unlocks)
    (hvv : ∀ e ∈ getLogbookEntriesForChallenge C A.id, e.unlockId ∉ s.viewedViewables)
    (hunlE : ∀ e ∈ getLogbookEntriesForChallenge C A.id, e.unlockId ∉ s.unlocks)
    (hdp : ∀ e ∈ getLogbookEntriesForChallenge C A.id,
      ∀ p ∈ e.pickupId.toList, p ∉ s.discoveredPickups)
    (hprov : ∀ e ∈ getLogbookEntriesForChallenge C A.id,
      ∀ c2 ∈ getChallengesForLogbookEntry C e.id,
      c2.achievement ≠ A.achievement → c2.achievement ∉ s.achievements) :
    (∀ x, x ∈ (toggleAchievement C (toggleAchievement C s A.achievement true)
        A.achievement false).achievements ↔ x ∈ s.achievements) ∧
    (∀ x, x ∈ (toggleAchievement C (toggleAchievement C s A.achievement true)
        A.achievement false).unviewedAchievements ↔ x ∈ s.unviewedAchievements) ∧
    (∀ x, x ∈ (toggleAchievement C (toggleAchievement C s A.achievement true)
        A.achievement false).viewedUnlockables ↔ x ∈ s.viewedUnlockables) ∧
    (∀ x, x ∈ (toggleAchievement C (toggleAchievement C s A.achievement true)
        A.achievement false).unlocks ↔ x ∈ s.unlocks) ∧
    (∀ x, x ∈ (toggleAchievement C (toggleAchievement C s A.achievement true)
        A.achievement false).viewedViewables ↔ x ∈ s.viewedViewables) ∧
    (∀ x, x ∈ (toggleAchievement C (toggleAchievement C s A.achievement true)
        A.achievement false).discoveredPickups ↔ x ∈ s.discoveredPickups) ∧
    (toggleAchievement C (toggleAchievement C s A.achievement true)
        A.achievement false).stats = s.stats ∧
    (toggleAchievement C (toggleAchievement C s A.achievement true)
        A.achievement false).name = s.name ∧
    (toggleAchievement C (toggleAchievement C s A.achievement true)
        A.achievement false).coins = s.coins := by
  set t1 := toggleAchievement C s A.achievement true with ht1
  have hgone : ((getLogbookEntriesForChallenge C A.id).filter fun e =>
      !(isLogbookEntryProvidedByOtherChallenge C e A.achievement
        (setDelete (jsDedup t1.achievements) A.achievement))) =
      getLogbookEntriesForChallenge C A.id := by
    apply List.filter_eq_self.mpr
    intro e he
    rw [providedBy_false]
    · rfl
    · intro c2 hc2 hne hmem
      have hmem2 : c2.achievement ∈ t1.achievements :=
        mem_jsDedup.mp (mem_setDelete.mp hmem).1
      rw [toggleAch_enable_ach hfind] at hmem2
      rcases hmem2 with hmem2 | hmem2
      · exact hprov e he c2 hc2 hne hmem2
      · exact hne hmem2
  refine ⟨?_, ?_, ?_, ?_, ?_, ?_, ?_, ?_, ?_⟩
  · intro x
    rw [toggleAch_disable_ach hfind, toggleAch_enable_ach hfind]
    constructor
    · rintro ⟨h | rfl, hne⟩
      · exact h
      · exact absurd rfl hne
    · intro h
      exact ⟨Or.inl h, fun heq => hach (heq ▸ h)⟩
  · intro x
    rw [toggleAch_disable_unv hfind, toggleAch_enable_unv hfind]
    constructor
    · rintro ⟨h | rfl, hne⟩
      · exact h
      · exact absurd rfl hne
    · intro h
      exact ⟨Or.inl h, fun heq => hunv (heq ▸ h)⟩
  · intro x
    rw [toggleAch_disable_vU hfind, toggleAch_enable_vU hfind]
    constructor
    · rintro ⟨h | h, hne⟩
      · exact h
      · exact absurd h hne
    · intro h
      exact ⟨Or.inl h, fun hu => hvU x hu h⟩
  · intro x
    rw [toggleAch_disable_unl hfind, hgone, toggleAch_enable_unl hfind]
    constructor
    · rintro ⟨h | h | h, hne, hnm⟩
      · exact h
      · exact absurd h hne
      · exact absurd h hnm
    · intro h
      refine ⟨Or.inl h, fun hu => hunl x hu h, fun hm => ?_⟩
      obtain ⟨e, he, rfl⟩ := List.mem_map.mp hm
      exact hunlE e he h
  · intro x
    rw [toggleAch_disable_vv hfind, hgone, toggleAch_enable_vv hfind]
    constructor
    · rintro ⟨h | h, hnm⟩
      · exact h
      · exact absurd h hnm
    · intro h
      refine ⟨Or.inl h, fun hm => ?_⟩
      obtain ⟨e, he, rfl⟩ := List.mem_map.mp hm
      exact hvv e he h
  · intro x
    rw [toggleAch_disable_dp hfind, hgone, toggleAch_enable_dp hfind]
    constructor
    · rintro ⟨h | h, hnm⟩
      · exact h
      · exact absurd h hnm
    · intro h
      refine ⟨Or.inl h, fun hm => ?_⟩
      obtain ⟨e, he, hps⟩ := List.mem_filterMap.mp hm
      exact hdp e he x (by simp [hps]) h
  · rw [(toggleAchievement_frame C t1 A.achievement false).1,
      (toggleAchievement_frame C s A.achievement true).1]
  · rw [(toggleAchievement_frame C t1 A.achievement false).2.1,
      (toggleAchievement_frame C s A.achievement true).2.1]
  · rw [(toggleAchievement_frame C t1 A.achievement false).2.2,
      (toggleAchievement_frame C s A.achievement true).2.2]

/-- Witness for the amended C3 at a concrete catalog and fresh state. -/
theorem claim_C3_witness :
    "Items.Shared" ∈ (toggleAchievement catShared
      (toggleAchievement catShared emptySave "AchA" true) "AchA" false).unlocks ↔
      "Items.Shared" ∈ emptySave.unlocks :=
  (claim_C3 catShared emptySave chA (by decide) (by decide) (by decide) (by decide)
    (by decide) (by decide) (by decide) (by decide) (by decide)).2.2.2.1 "Items.Shared"

/-! ## Shared-entry retention -/

/-- Counterexample to C1 as stated: with challenges A and B both
granting the shared entry, enabling both and disabling A removes the
entry's canonical unlock id from `unlocks` (it is among A's own unlock
ids, which the disable branch deletes unconditionally), even though it
stays in `viewedViewables`. -/
theorem claim_C1_cex :
    "Items.Shared" ∉ (toggleAchievement catShared (toggleAchievement catShared
      (toggleAchievement catShared emptySave "AchA" true) "AchB" true)
      "AchA" false).unlocks ∧
    "Items.Shared" ∈ (toggleAchievement catShared (toggleAchievement catShared
      (toggleAchievement catShared emptySave "AchA" true) "AchB" true)
      "AchA" false).viewedViewables := by
  decide

/-- C1 (amended): for challenges A and B both linked to entry E,
enabling both and then disabling A keeps E's canonical id in
`viewedViewables` and its pickup id in `discoveredPickups` (provided by
B), so E still satisfies `isLogbookEntryUnlocked` — though the
canonical id is removed from `unlocks`, being among A's own unlock ids
(see the counterexample); disabling B afterwards removes the canonical
id from `unlocks` and `viewedViewables` and the pickup id from
`discoveredPickups`, provided no third challenge linked to E was
already held in the input state. -/
theorem claim_C1 (C : Catalog) (s : SaveData) (A B : Challenge) (E : LogbookEntry)
    (hfA : C.challenges.find? (fun c => c.achievement == A.achievement) = some A)
    (hfB : C.challenges.find? (fun c => c.achievement == B.achievement) = some B)
    (hAB : A.achievement ≠ B.achievement)
    (hAE : E ∈ getLogbookEntriesForChallenge C A.id)
    (hBE : E ∈ getLogbookEntriesForChallenge C B.id)
    (hprovA : ∀ e ∈ getLogbookEntriesForChallenge C A.id,
      e.unlockId = E.unlockId → B ∈ getChallengesForLogbookEntry C e.id)
    (hprovAp : ∀ e ∈ getLogbookEntriesForChallenge C A.id,
      ∀ p ∈ E.pickupId.toList, e.pickupId = some p →
        B ∈ getChallengesForLogbookEntry C e.id)
    (hthird : ∀ c2 ∈ getChallengesForLogbookEntry C E.id,
      c2.achievement ≠ A.achievement → c2.achievement ≠ B.achievement →
        c2.achievement ∉ s.achievements) :
    (E.unlockId ∈ (toggleAchievement C (toggleAchievement C
        (toggleAchievement C s A.achievement true) B.achievement true)
        A.achievement false).viewedViewables) ∧
    (∀ p ∈ E.pickupId.toList, p ∈ (toggleAchievement C (toggleAchievement C
        (toggleAchievement C s A.achievement true) B.achievement true)
        A.achievement false).discoveredPickups) ∧
    (isLogbookEntryUnlocked (toggleAchievement C (toggleAchievement C
        (toggleAchievement C s A.achievement true) B.achievement true)
        A.achievement false) E = true) ∧
    (E.unlockId ∉ (toggleAchievement C (toggleAchievement C (toggleAchievement C
        (toggleAchievement C s A.achievement true) B.achievement true)
        A.achievement false) B.achievement false).unlocks) ∧
    (E.unlockId ∉ (toggleAchievement C (toggleAchievement C (toggleAchievement C
        (toggleAchievement C s A.achievement true) B.achievement true)
        A.achievement false) B.achievement false).viewedViewables) ∧
    (∀ p ∈ E.pickupId.toList, p ∉ (toggleAchievement C (toggleAchievement C
        (toggleAchievement C (toggleAchievement C s A.achievement true)
        B.achievement true) A.achievement false) B.achievement false).discoveredPickups) := by
  set t1 := toggleAchievement C s A.achievement true with ht1
  set t2 := toggleAchievement C t1 B.achievement true with ht2
  set t3 := toggleAchievement C t2 A.achievement false with ht3
  have hT2ach : ∀ x, x ∈ t2.achievements ↔
      (x ∈ s.achievements ∨ x = A.achievement ∨ x = B.achievement) := by
    intro x
    rw [ht2, toggleAch_enable_ach hfB, ht1, toggleAch_enable_ach hfA]
    tauto
  have hT3ach : ∀ x, x ∈ t3.achievements ↔
      ((x ∈ s.achievements ∨ x = B.achievement) ∧ x ≠ A.achievement) := by
    intro x
    rw [ht3, toggleAch_disable_ach hfA, hT2ach]
    constructor
    · rintro ⟨h | rfl | h, hne⟩
      · exact ⟨Or.inl h, hne⟩
      · exact absurd rfl hne
      · exact ⟨Or.inr h, hne⟩
    · rintro ⟨h | h, hne⟩
      · exact ⟨Or.inl h, hne⟩
      · exact ⟨Or.inr (Or.inr h), hne⟩
  have hBmem3 : B.achievement ∈ setDelete (jsDedup t2.achievements) A.achievement :=
    mem_setDelete.mpr ⟨mem_jsDedup.mpr ((hT2ach _).mpr (Or.inr (Or.inr rfl))),
      fun h => hAB h.symm⟩
  have hmapA : E.unlockId ∉ ((getLogbookEntriesForChallenge C A.id).filter fun e =>
      !(isLogbookEntryProvidedByOtherChallenge C e A.achievement
        (setDelete (jsDedup t2.achievements) A.achievement))).map (·.unlockId) := by
    intro hm
    obtain ⟨e, he, heq⟩ := List.mem_map.mp hm
    obtain ⟨herel, hcond⟩ := List.mem_filter.mp he
    rw [providedBy_true (hprovA e herel heq) (fun h => hAB h.symm) hBmem3] at hcond
    simp at hcond
  have hdpA : ∀ p ∈ E.pickupId.toList,
      p ∉ ((getLogbookEntriesForChallenge C A.id).filter fun e =>
        !(isLogbookEntryProvidedByOtherChallenge C e A.achievement
          (setDelete (jsDedup t2.achievements) A.achievement))).filterMap (·.pickupId) := by
    intro p hp hm
    obtain ⟨e, he, hps⟩ := List.mem_filterMap.mp hm
    obtain ⟨herel, hcond⟩ := List.mem_filter.mp he
    rw [providedBy_true (hprovAp e herel p hp hps) (fun h => hAB h.symm) hBmem3] at hcond
    simp at hcond
  have hvv3 : E.unlockId ∈ t3.viewedViewables := by
    rw [ht3, toggleAch_disable_vv hfA]
    refine ⟨?_, hmapA⟩
    rw [ht2, toggleAch_enable_vv hfB]
    exact Or.inr (List.mem_map.mpr ⟨E, hBE, rfl⟩)
  have hdp3 : ∀ p ∈ E.pickupId.toList, p ∈ t3.discoveredPickups := by
    intro p hp
    have hps : E.pickupId = some p := by
      cases hpk : E.pickupId <;> simp [hpk] at hp <;> simp [hp]
    rw [ht3, toggleAch_disable_dp hfA]
    refine ⟨?_, hdpA p hp⟩
    rw [ht2, toggleAch_enable_dp hfB]
    exact Or.inr (List.mem_filterMap.mpr ⟨E, hBE, hps⟩)
  have hEgoneB : E ∈ (getLogbookEntriesForChallenge C B.id).filter fun e =>
      !(isLogbookEntryProvidedByOtherChallenge C e B.achievement
        (setDelete (jsDedup t3.achievements) B.achievement)) := by
    refine List.mem_filter.mpr ⟨hBE, ?_⟩
    rw [providedBy_false]
    · rfl
    · intro c2 hc2 hne hmem
      obtain ⟨hmem2, hneB⟩ := mem_setDelete.mp hmem
      obtain ⟨hor, hneA⟩ := (hT3ach _).mp (mem_jsDedup.mp hmem2)
      rcases hor with hmem3 | heq
      · exact hthird c2 hc2 hneA hneB hmem3
      · exact hneB heq
  refine ⟨hvv3, hdp3, ?_, ?_, ?_, ?_⟩
  · unfold isLogbookEntryUnlocked
    rw [contains_iff.mpr hvv3]
    simp
  · intro hmem
    rw [toggleAch_disable_unl hfB] at hmem
    exact hmem.2.2 (List.mem_map.mpr ⟨E, hEgoneB, rfl⟩)
  · intro hmem
    rw [toggleAch_disable_vv hfB] at hmem
    exact hmem.2 (List.mem_map.mpr ⟨E, hEgoneB, rfl⟩)
  · intro p hp hmem
    have hps : E.pickupId = some p := by
      cases hpk : E.pickupId <;> simp [hpk] at hp <;> simp [hp]
    rw [toggleAch_disable_dp hfB] at hmem
    exact hmem.2 (List.mem_filterMap.mpr ⟨E, hEgoneB, hps⟩)

/-- Witness for the amended C1 at the concrete shared-entry catalog. -/
theorem claim_C1_witness :
    "Items.Shared" ∈ (toggleAchievement catShared (toggleAchievement catShared
      (toggleAchievement catShared emptySave "AchA" true) "AchB" true)
      "AchA" false).viewedViewables :=
  (claim_C1 catShared emptySave chA chB entShared (by decide) (by decide) (by decide)
    (by decide) (by decide) (by decide) (by decide) (by decide)).1

end Ror2
